import Mathlib

/-! Workflow controller (`pkg/jx/cmd/controller_workflow.go`)

A shallow embedding of the promotion workflow controller: the activity
admission and promotion driver (`onActivity`), the precondition evaluator
(`canExecuteStep`), and the pull request reconciler (`checkPullRequest`).

Go maps written only through `m[k] = v` / `delete(m, k)` and read only through
`m[k]` are functions `String → Option V` (a nil pointer and a missing key both
read as `none`).  The one map whose keys are enumerated (`urlStatusMap`) is an
association list.  Calls that leave the process (promoter, Git host, resource
store) are recorded in an effect trace; their answers come from oracle
functions.
-/

namespace ControllerWorkflow

/-! ## Data model -/

/-- Go `v1.ActivityStatusType`, a string type. -/
abbrev ActivityStatusType := String

/-- Modelled from the spec: the status constants of `v1.ActivityStatusType` are
declared outside the sources; the spec names the statuses `pending`, `running`,
`succeeded`, `failed` and `aborted`.  This one is `pending`. -/
def ActivityStatusTypePending : ActivityStatusType := "pending"

/-- Modelled from the spec: the status `running` (see
`ActivityStatusTypePending`). -/
def ActivityStatusTypeRunning : ActivityStatusType := "running"

/-- Modelled from the spec: the constant `v1.ActivityStatusTypeSucceeded`, the
status `succeeded` (see `ActivityStatusTypePending`). -/
def ActivityStatusTypeSucceeded : ActivityStatusType := "succeeded"

/-- Modelled from the spec: the status `failed` (see
`ActivityStatusTypePending`). -/
def ActivityStatusTypeFailed : ActivityStatusType := "failed"

/-- Modelled from the spec: the status `aborted` (see
`ActivityStatusTypePending`). -/
def ActivityStatusTypeAborted : ActivityStatusType := "aborted"

/-- Modelled from the spec: `ActivityStatusType.IsTerminated` is declared
outside the sources; the spec (data model) says that of pending, running,
succeeded, failed and aborted the last three are terminal. -/
def IsTerminated (s : ActivityStatusType) : Bool :=
  s == ActivityStatusTypeSucceeded || s == ActivityStatusTypeFailed ||
    s == ActivityStatusTypeAborted

/-- Modelled from the spec: the constant `gitStatusSuccess` is declared in
another file of the package; the spec writes the state `success`. -/
def gitStatusSuccess : String := "success"

/-- Go `v1.PromotePullRequestStep` (fields this file touches). -/
structure PromotePullRequestStep where
  PullRequestURL : String
  MergeCommitSHA : String
  deriving DecidableEq, Repr

/-- Go `v1.GitStatus`. -/
structure GitStatus where
  URL : String
  Status : String
  deriving DecidableEq, Repr

/-- Go `v1.PromoteActivityStep` (fields this file touches); `PullRequest` is a
pointer. -/
structure PromoteActivityStep where
  Environment : String
  Status : ActivityStatusType
  PullRequest : Option PromotePullRequestStep
  deriving DecidableEq, Repr

/-- Go `v1.PipelineActivityStep`; `Promote` is a pointer. -/
structure PipelineActivityStep where
  Promote : Option PromoteActivityStep
  deriving DecidableEq, Repr

/-- Go `v1.PipelineActivitySpec` (fields this file touches). -/
structure PipelineActivitySpec where
  Pipeline : String
  Build : String
  Version : String
  GitRepository : String
  GitURL : String
  Workflow : String
  WorkflowStatus : ActivityStatusType
  Steps : List PipelineActivityStep
  deriving DecidableEq, Repr

/-- Go `v1.PipelineActivity`. -/
structure PipelineActivity where
  Name : String
  Spec : PipelineActivitySpec
  deriving DecidableEq, Repr

/-- Go `v1.PromoteWorkflowStep`. -/
structure PromoteWorkflowStep where
  Environment : String
  deriving DecidableEq, Repr

/-- Go `v1.WorkflowPreconditions`. -/
structure WorkflowPreconditions where
  Environments : List String
  deriving DecidableEq, Repr

/-- Go `v1.WorkflowStep`; `Promote` is a pointer. -/
structure WorkflowStep where
  Promote : Option PromoteWorkflowStep
  Preconditions : WorkflowPreconditions
  deriving DecidableEq, Repr

/-- Go `v1.WorkflowSpec`. -/
structure WorkflowSpec where
  Steps : List WorkflowStep
  deriving DecidableEq, Repr

/-- Go `v1.Workflow`. -/
structure Workflow where
  Name : String
  Spec : WorkflowSpec
  deriving DecidableEq, Repr

/-- A Go `map[string]*V` that is only indexed, assigned and deleted from. -/
abbrev GoMap (V : Type) := String → Option V

/-- The empty map `map[string]*V{}`. -/
def GoMap.empty {V : Type} : GoMap V := fun _ => none

/-- The assignment `m[k] = v`. -/
def GoMap.set {V : Type} (m : GoMap V) (k : String) (v : V) : GoMap V :=
  fun k' => if k' = k then some v else m k'

/-- The builtin `delete(m, k)`. -/
def GoMap.delete {V : Type} (m : GoMap V) (k : String) : GoMap V :=
  fun k' => if k' = k then none else m k'

/-! ## Precondition evaluator -/

/-- The `for _, envName := range step.Preconditions.Environments` loop of
`canExecuteStep`. -/
def canExecuteStepLoop (statusMap : GoMap PromoteActivityStep) : List String → Bool
  | [] => true
  | envName :: rest =>
    match statusMap envName with
    | none => false
    | some status =>
      if status.Status ≠ ActivityStatusTypeSucceeded then false
      else canExecuteStepLoop statusMap rest

/-- Go `canExecuteStep` (the warnings it logs are not part of the result). -/
def canExecuteStep (_workflow : Workflow) (_activity : PipelineActivity) (step : WorkflowStep)
    (statusMap : GoMap PromoteActivityStep) (_promoteToEnv : String) : Bool :=
  canExecuteStepLoop statusMap step.Preconditions.Environments

/-- The loop of `createPromoteStatus`, with the map built so far. -/
def createPromoteStatusLoop (answer : GoMap PromoteActivityStep) :
    List PipelineActivityStep → GoMap PromoteActivityStep
  | [] => answer
  | step :: rest =>
    match step.Promote with
    | some promote =>
      let envName := promote.Environment
      if envName ≠ "" then createPromoteStatusLoop (answer.set envName promote) rest
      else createPromoteStatusLoop answer rest
    | none => createPromoteStatusLoop answer rest

/-- Go `createPromoteStatus`: a map indexed by environment name of all the
promotions in this pipeline. -/
def createPromoteStatus (pipeline : PipelineActivity) : GoMap PromoteActivityStep :=
  createPromoteStatusLoop GoMap.empty pipeline.Spec.Steps

/-! ## External collaborators -/

/-- Go `gits.GitRepositoryInfo` (fields this file touches). -/
structure GitRepositoryInfo where
  URL : String
  Organisation : String
  Name : String
  deriving DecidableEq, Repr

/-- Go `gits.GitPullRequest` (fields this file touches); `Merged`,
`MergeCommitSHA` and `Mergeable` are pointers. -/
structure GitPullRequest where
  URL : String
  Owner : String
  Repo : String
  LastCommitSha : String
  Merged : Option Bool
  MergeCommitSHA : Option String
  Mergeable : Option Bool
  deriving DecidableEq, Repr

/-- Go `gits.GitRepoStatus`. -/
structure GitRepoStatus where
  URL : String
  TargetURL : String
  State : String
  Description : String
  deriving DecidableEq, Repr

/-- Go `v1.EnvironmentSpec` (fields this file touches). -/
structure EnvironmentSpec where
  Namespace : String
  deriving DecidableEq, Repr

/-- Go `v1.Environment`. -/
structure Environment where
  Name : String
  Spec : EnvironmentSpec
  deriving DecidableEq, Repr

/-- Go `ReleaseInfo`. -/
structure ReleaseInfo where
  ReleaseName : String
  FullAppName : String
  Version : String
  deriving DecidableEq, Repr

/-- Go `PromoteOptions`, the fields `createPromoteOptions` and
`checkPullRequest` assign (the copied `CommonOptions` and the test hook
`FakePullRequests` carry no data of the controller). -/
structure PromoteOptions where
  Application : String
  Environment : String
  Pipeline : String
  Build : String
  Version : String
  NoPoll : Bool
  IgnoreLocalFiles : Bool
  HelmRepositoryURL : String
  LocalHelmRepoName : String
  BatchMode : Bool
  GitInfo : Option GitRepositoryInfo
  deriving DecidableEq, Repr

/-- Go `kube.PromoteStepActivityKey`, the value `po.createPromoteKey(env)`
returns and through which the activity is patched. -/
structure PromoteStepActivityKey where
  Name : String
  Pipeline : String
  Build : String
  Environment : String
  deriving DecidableEq, Repr

/-- The closure handed to `promoteKey.OnPromotePullRequest`: `mergedPR` runs
`kube.CompletePromotionPullRequest` and sets `p.MergeCommitSHA = mergeSha`. -/
inductive PullRequestPatch where
  | mergedPR (mergeSha : String)
  deriving DecidableEq, Repr

/-- The closure handed to `promoteKey.OnPromoteUpdate`. -/
inductive UpdatePatch where
  | StartPromotionUpdate
  | updateStatuses (prStatuses : List GitStatus)
  | CompletePromotionUpdate
  deriving DecidableEq, Repr

/-- A call that leaves the controller, in the order the code makes it. -/
inductive Effect where
  /-- The call `workflow.CreateDefaultWorkflow(jxClient, ns)`. -/
  | createDefaultWorkflow (ns : String)
  /-- The call `po.Run()` of the promoter, with the error it returned. -/
  | promoteRun (po : PromoteOptions) (err : Option String)
  /-- The call `gitProvider.GetPullRequest(org, gitInfo, prNumber)`. -/
  | getPullRequest (org : String) (gitInfo : GitRepositoryInfo) (prNumber : Int)
  /-- The call `environments.Get(envName, ...)`. -/
  | environmentsGet (envName : String)
  /-- The call `promoteKey.OnPromotePullRequest(activities, fn)`. -/
  | onPromotePullRequest (promoteKey : PromoteStepActivityKey) (fn : PullRequestPatch)
  /-- The call `promoteKey.OnPromoteUpdate(activities, fn)`. -/
  | onPromoteUpdate (promoteKey : PromoteStepActivityKey) (fn : UpdatePatch)
  /-- The call `gitProvider.ListCommitStatus(owner, repo, sha)`. -/
  | listCommitStatus (owner : String) (repo : String) (sha : String)
  /-- The call `po.commentOnIssues(ns, env, promoteKey)`. -/
  | commentOnIssues (po : PromoteOptions) (ns : String) (env : Environment)
      (promoteKey : PromoteStepActivityKey)
  /-- The call `gitProvider.PullRequestLastCommitStatus(pr)`. -/
  | pullRequestLastCommitStatus (pr : GitPullRequest)
  /-- The call `gitProvider.MergePullRequest(pr, message)`, with the error it
  returned. -/
  | mergePullRequest (pr : GitPullRequest) (message : String) (err : Option String)
  /-- The call `po.PromoteViaPullRequest(env, releaseInfo)`. -/
  | promoteViaPullRequest (po : PromoteOptions) (env : Environment) (releaseInfo : ReleaseInfo)
  deriving DecidableEq, Repr

/-- Go `gits.GitProvider` (the operations this file calls); an error is a
message, a pointer result that may be nil is an `Option`. -/
structure GitProvider where
  GetPullRequest : String → GitRepositoryInfo → Int → Except String GitPullRequest
  ListCommitStatus : String → String → String → Except String (List GitRepoStatus)
  PullRequestLastCommitStatus : GitPullRequest → Except String String
  MergePullRequest : GitPullRequest → String → Option String

/-- Go `typev1.EnvironmentInterface` (the operation this file calls). -/
structure EnvironmentInterface where
  Get : String → Except String Environment

/-- Declarations the controller uses that live outside the sources: methods of
the API types, package constants, and the promoter, Git and store helpers. -/
structure Deps where
  /-- The method `PipelineActivity.RepositoryName()`. -/
  RepositoryName : PipelineActivity → String
  /-- The method `PipelineActivity.BranchName()`. -/
  BranchName : PipelineActivity → String
  /-- The method `GitRepoStatus.IsFailed()`. -/
  IsFailed : GitRepoStatus → Bool
  /-- The method `GitPullRequest.IsClosed()`. -/
  IsClosed : GitPullRequest → Bool
  /-- The constant `helm.DefaultHelmRepositoryURL`. -/
  DefaultHelmRepositoryURL : String
  /-- The constant `kube.LocalHelmRepoName`. -/
  LocalHelmRepoName : String
  /-- The function `gits.ParseGitURL`: the info pointer and the error. -/
  ParseGitURL : String → Option GitRepositoryInfo × Option String
  /-- The method `createGitProviderForURLWithoutKind`: provider, info, error. -/
  createGitProviderForURLWithoutKind :
    String → Option GitProvider × Option GitRepositoryInfo × Option String
  /-- The function `workflow.CreateDefaultWorkflow`: the workflow pointer and
  the error. -/
  CreateDefaultWorkflow : String → Option Workflow × Option String
  /-- The method `PromoteOptions.createPromoteKey`. -/
  createPromoteKey : PromoteOptions → Environment → PromoteStepActivityKey
  /-- The method `PromoteOptions.commentOnIssues`: the error. -/
  commentOnIssues :
    PromoteOptions → String → Environment → PromoteStepActivityKey → Option String
  /-- The method `PromoteOptions.Run`: the error. -/
  Run : PromoteOptions → Option String

/-- Go `ControllerWorkflowOptions`: the flags and calculated fields the
controller logic reads or writes (`ReleaseName` is the promoted field
`createReleaseInfo` assigns). -/
structure ControllerWorkflowOptions where
  NoMergePullRequest : Bool
  LocalHelmRepoName : String
  ReleaseName : String
  FakeGitProvider : Option GitProvider
  workflowMap : GoMap Workflow
  pipelineMap : GoMap PipelineActivity

/-! ## Workflow cache and activity indexer -/

/-- Go `onWorkflow`. -/
def onWorkflow (o : ControllerWorkflowOptions) (workflow : Workflow) : ControllerWorkflowOptions :=
  { o with workflowMap := o.workflowMap.set workflow.Name workflow }

/-- Go `onWorkflowDelete`. -/
def onWorkflowDelete (o : ControllerWorkflowOptions) (workflow : Workflow) :
    ControllerWorkflowOptions :=
  { o with workflowMap := o.workflowMap.delete workflow.Name }

/-- Go `isReleaseBranch`. -/
def isReleaseBranch (_o : ControllerWorkflowOptions) (branchName : String) : Bool :=
  branchName == "master"

/-- Go `removePipelineActivity`. -/
def removePipelineActivity (o : ControllerWorkflowOptions) (activity : PipelineActivity) :
    ControllerWorkflowOptions :=
  { o with pipelineMap := o.pipelineMap.delete activity.Name }

/-- Go `createPromoteOptions`. -/
def createPromoteOptions (d : Deps) (repoName envName pipelineName build version : String) :
    PromoteOptions :=
  { Application := repoName
    Environment := envName
    Pipeline := pipelineName
    Build := build
    Version := version
    NoPoll := true
    IgnoreLocalFiles := true
    HelmRepositoryURL := d.DefaultHelmRepositoryURL
    LocalHelmRepoName := d.LocalHelmRepoName
    BatchMode := true
    GitInfo := none }

/-- The test of `onActivity` on the promote-status entry of an environment:
`status == nil || status.PullRequest == nil || status.PullRequest.PullRequestURL == ""`. -/
def lacksPullRequestURL : Option PromoteActivityStep → Bool
  | none => true
  | some status =>
    match status.PullRequest with
    | none => true
    | some pullRequest => pullRequest.PullRequestURL == ""

/-- The body of the `for _, step := range flow.Spec.Steps` loop of
`onActivity`: the effects of one workflow step. -/
def onActivityStep (d : Deps) (flow : Workflow) (pipeline : PipelineActivity)
    (promoteStatusMap : GoMap PromoteActivityStep)
    (repoName pipelineName build version : String) (step : WorkflowStep) : List Effect :=
  match step.Promote with
  | some promote =>
    let envName := promote.Environment
    if envName ≠ "" then
      let status := promoteStatusMap envName
      if lacksPullRequestURL status then
        if canExecuteStep flow pipeline step promoteStatusMap envName then
          let po := createPromoteOptions d repoName envName pipelineName build version
          [Effect.promoteRun po (d.Run po)]
        else []
      else []
    else []
  | none => []

/-- The `for _, step := range flow.Spec.Steps` loop of `onActivity`. -/
def onActivitySteps (d : Deps) (flow : Workflow) (pipeline : PipelineActivity)
    (promoteStatusMap : GoMap PromoteActivityStep)
    (repoName pipelineName build version : String) : List WorkflowStep → List Effect
  | [] => []
  | step :: rest =>
    onActivityStep d flow pipeline promoteStatusMap repoName pipelineName build version step ++
      onActivitySteps d flow pipeline promoteStatusMap repoName pipelineName build version rest

/-- The part of `onActivity` after the workflow lookup: `flow` is the pointer
the lookup (or the creation of the default workflow) produced. -/
def onActivityFlow (d : Deps) (o : ControllerWorkflowOptions) (pipeline : PipelineActivity)
    (flow : Option Workflow) : ControllerWorkflowOptions × List Effect :=
  match flow with
  | none => (removePipelineActivity o pipeline, [])
  | some flow =>
    if ¬ isReleaseBranch o (d.BranchName pipeline) then
      (removePipelineActivity o pipeline, [])
    else
      -- ensure the pipeline is in our map
      let o1 := { o with pipelineMap := o.pipelineMap.set pipeline.Name pipeline }
      let promoteStatusMap := createPromoteStatus pipeline
      (o1, onActivitySteps d flow pipeline promoteStatusMap (d.RepositoryName pipeline)
        pipeline.Spec.Pipeline pipeline.Spec.Build pipeline.Spec.Version flow.Spec.Steps)

/-- Go `onActivity`: the new controller state and the calls made. -/
def onActivity (d : Deps) (o : ControllerWorkflowOptions) (pipeline : PipelineActivity)
    (ns : String) : ControllerWorkflowOptions × List Effect :=
  let workflowName := pipeline.Spec.Workflow
  let version := pipeline.Spec.Version
  let repoName := d.RepositoryName pipeline
  let pipelineName := pipeline.Spec.Pipeline
  let build := pipeline.Spec.Build
  let workflowName := if workflowName = "" then "default" else workflowName
  if repoName = "" ∨ version = "" ∨ build = "" ∨ pipelineName = "" then
    (removePipelineActivity o pipeline, [])
  else if ¬ IsTerminated pipeline.Spec.WorkflowStatus then
    let flow := o.workflowMap workflowName
    if flow.isNone ∧ workflowName = "default" then
      match d.CreateDefaultWorkflow ns with
      | (_, some _) =>
        (removePipelineActivity o pipeline, [Effect.createDefaultWorkflow ns])
      | (flow, none) =>
        let r := onActivityFlow d o pipeline flow
        (r.1, Effect.createDefaultWorkflow ns :: r.2)
    else onActivityFlow d o pipeline flow
  else (o, [])

/-- Go `onActivityObj`: `obj` is `none` when the object is not a non-nil
`*v1.PipelineActivity`. -/
def onActivityObj (d : Deps) (o : ControllerWorkflowOptions) (obj : Option PipelineActivity)
    (ns : String) : ControllerWorkflowOptions × List Effect :=
  match obj with
  | none => (o, [])
  | some pipeline => onActivity d o pipeline ns

/-- The `AddFunc` of the pipeline activity informer in `Run`. -/
def pipelineAddFunc (d : Deps) (o : ControllerWorkflowOptions) (obj : Option PipelineActivity)
    (ns : String) : ControllerWorkflowOptions × List Effect :=
  onActivityObj d o obj ns

/-- The `UpdateFunc` of the pipeline activity informer in `Run`. -/
def pipelineUpdateFunc (d : Deps) (o : ControllerWorkflowOptions)
    (_oldObj newObj : Option PipelineActivity) (ns : String) :
    ControllerWorkflowOptions × List Effect :=
  onActivityObj d o newObj ns

/-- The `DeleteFunc` of the pipeline activity informer in `Run`: its body is
empty. -/
def pipelineDeleteFunc (o : ControllerWorkflowOptions) (_obj : Option PipelineActivity) :
    ControllerWorkflowOptions × List Effect :=
  (o, [])

/-- Go `onWorkflowObj`. -/
def onWorkflowObj (o : ControllerWorkflowOptions) (obj : Option Workflow) :
    ControllerWorkflowOptions :=
  match obj with
  | none => o
  | some workflow => onWorkflow o workflow

/-- Go `deleteWorkflowObjb`, the `DeleteFunc` of the workflow informer. -/
def deleteWorkflowObjb (o : ControllerWorkflowOptions) (obj : Option Workflow) :
    ControllerWorkflowOptions :=
  match obj with
  | none => o
  | some workflow => onWorkflowDelete o workflow

/-- The promoter invocations (`po.Run()`) of a trace, in order. -/
def promoterRuns : List Effect → List PromoteOptions
  | [] => []
  | Effect.promoteRun po _ :: rest => po :: promoterRuns rest
  | _ :: rest => promoterRuns rest

/-! ## Strings -/

/-- The index of the last occurrence of `sep` among the characters. -/
def lastIndexOf (sep : Char) : List Char → Option Nat
  | [] => none
  | c :: cs =>
    match lastIndexOf sep cs with
    | some i => some (i + 1)
    | none => if c = sep then some 0 else none

/-- Go `strings.LastIndex(s, sep)` for a one-character `sep`: -1 when `sep`
does not occur.  Indices count characters; `/` is a single byte that never
occurs inside a multi-byte character, so a cut at the index falls at the same
place as in the Go byte string. -/
def stringsLastIndex (s : String) (sep : Char) : Int :=
  match lastIndexOf sep s.data with
  | some i => (i : Int)
  | none => -1

/-- The Go slice `s[0:idx]`. -/
def sliceTo (s : String) (idx : Int) : String :=
  String.mk (s.data.take idx.toNat)

/-- Go `strings.TrimSuffix(s, sep)` for a one-character `sep`. -/
def stringsTrimSuffix (s : String) (sep : Char) : String :=
  if s.data.getLast? = some sep then String.mk s.data.dropLast else s

/-- The pieces of the characters between the occurrences of `sep`. -/
def splitOnChar (sep : Char) : List Char → List (List Char)
  | [] => [[]]
  | c :: cs =>
    if c = sep then [] :: splitOnChar sep cs
    else
      match splitOnChar sep cs with
      | [] => [[c]]
      | piece :: pieces => (c :: piece) :: pieces

/-- Go `strings.Split(s, sep)` for a one-character `sep`. -/
def stringsSplit (s : String) (sep : Char) : List String :=
  (splitOnChar sep s.data).map String.mk

/-- The value of a run of decimal digits, `none` when a character is not a
digit; `acc` is the value read so far. -/
def parseDigits (acc : Nat) : List Char → Option Nat
  | [] => some acc
  | c :: cs =>
    if 48 ≤ c.toNat ∧ c.toNat ≤ 57 then parseDigits (acc * 10 + (c.toNat - 48)) cs
    else none

/-- Go `strconv.Atoi` with a 64-bit `int`: an optional sign, at least one
decimal digit, and a value within the range of `int`. -/
def strconvAtoi (s : String) : Except String Int :=
  let signed : Bool × List Char :=
    match s.data with
    | '+' :: rest => (false, rest)
    | '-' :: rest => (true, rest)
    | cs => (false, cs)
  match signed.2 with
  | [] => Except.error "invalid syntax"
  | digits =>
    match parseDigits 0 digits with
    | none => Except.error "invalid syntax"
    | some n =>
      let value : Int := if signed.1 then -(n : Int) else (n : Int)
      if -(2 : Int) ^ 63 ≤ value ∧ value ≤ (2 : Int) ^ 63 - 1 then Except.ok value
      else Except.error "value out of range"

/-- Go `pullRequestURLToNumber`. -/
def pullRequestURLToNumber (text : String) : Except String Int :=
  let paths := stringsSplit (stringsTrimSuffix text '/') '/'
  let lastPath := paths.getLastD ""
  match strconvAtoi lastPath with
  | Except.error err =>
    Except.error ("Failed to parse PR number from " ++ lastPath ++ " on URL " ++ text ++ ": " ++ err)
  | Except.ok prNumber => Except.ok prNumber

/-! ## Pull request reconciler -/

/-- The first lines of `createGitProviderForPR` ("lets remove the id"): the Git
URL derived from the pull request URL, or the error. -/
def pullRequestGitURL (prURL : String) : Except String String :=
  let idx := stringsLastIndex prURL '/'
  if idx ≤ 0 then Except.error ("No / in URL: " ++ prURL)
  else
    let gitUrl := sliceTo prURL idx
    let idx := stringsLastIndex gitUrl '/'
    if idx ≤ 0 then Except.error ("No / in URL: " ++ gitUrl)
    else Except.ok (sliceTo gitUrl idx ++ ".git")

/-- Go `createGitProviderForPR`: provider, repository info, error. -/
def createGitProviderForPR (d : Deps) (o : ControllerWorkflowOptions) (prURL : String) :
    Option GitProvider × Option GitRepositoryInfo × Option String :=
  match pullRequestGitURL prURL with
  | Except.error err => (none, none, some err)
  | Except.ok gitUrl =>
    match o.FakeGitProvider with
    | some fake =>
      match d.ParseGitURL gitUrl with
      | (gitInfo, some err) => (none, gitInfo, some err)
      | (gitInfo, none) => (some fake, gitInfo, none)
    | none =>
      match d.createGitProviderForURLWithoutKind gitUrl with
      | (answer, gitInfo, some err) =>
        (answer, gitInfo, some ("Failed for git URL " ++ gitUrl ++ ": " ++ err))
      | (answer, gitInfo, none) => (answer, gitInfo, none)

/-- Go `createPromoteOptionsFromActivity`. -/
def createPromoteOptionsFromActivity (d : Deps) (pipeline : PipelineActivity)
    (envName : String) : PromoteOptions :=
  let version := pipeline.Spec.Version
  let repoName := pipeline.Spec.GitRepository
  let pipelineName := pipeline.Spec.Pipeline
  let build := pipeline.Spec.Build
  let paths := stringsSplit pipelineName '/'
  let repoName :=
    if repoName = "" ∧ paths.length > 1 then paths.getD (paths.length - 2) "" else repoName
  createPromoteOptions d repoName envName pipelineName build version

/-- Go `createReleaseInfo`: the release descriptor (nil without a repository
name) and the options after the assignment to `o.ReleaseName`. -/
def createReleaseInfo (d : Deps) (o : ControllerWorkflowOptions) (activity : PipelineActivity)
    (env : Environment) : Option ReleaseInfo × ControllerWorkflowOptions :=
  let app := d.RepositoryName activity
  if app = "" then (none, o)
  else
    let fullAppName := if o.LocalHelmRepoName ≠ "" then o.LocalHelmRepoName ++ "/" ++ app else app
    let releaseName := env.Spec.Namespace ++ "-" ++ app
    (some { ReleaseName := releaseName, FullAppName := fullAppName,
            Version := activity.Spec.Version },
      { o with ReleaseName := releaseName })

/-- A Go `map[string]string` whose keys are enumerated: the pairs in insertion
order, one per key. -/
abbrev StringMap := List (String × String)

/-- The read `m[k]`, the empty string for a missing key. -/
def StringMap.get : StringMap → String → String
  | [], _ => ""
  | (k', v) :: rest, k => if k' = k then v else StringMap.get rest k

/-- The assignment `m[k] = v`. -/
def StringMap.set : StringMap → String → String → StringMap
  | [], k, v => [(k, v)]
  | (k', v') :: rest, k, v =>
    if k' = k then (k, v) :: rest else (k', v') :: StringMap.set rest k v

/-- Modelled from the spec: `util.SortedMapKeys` is declared outside the
sources; the spec says the keys are taken sorted alphabetically.  The order
is that of Go `sort.Strings`, the lexicographic order of the characters. -/
def SortedMapKeys (m : StringMap) : List String :=
  (m.map Prod.fst).insertionSort (fun a b => a.data ≤ b.data)

/-- The `for _, status := range statuses` loop of `checkPullRequest` that fills
`urlStatusMap` and `urlStatusTargetURLMap`; `none` when a failed status makes
the function return. -/
def collectStatuses (d : Deps) :
    StringMap → StringMap → List GitRepoStatus → Option (StringMap × StringMap)
  | urlStatusMap, urlStatusTargetURLMap, [] => some (urlStatusMap, urlStatusTargetURLMap)
  | urlStatusMap, urlStatusTargetURLMap, status :: rest =>
    if d.IsFailed status then none
    else
      let url := status.URL
      let state := status.State
      if urlStatusMap.get url = "" ∨ urlStatusMap.get url ≠ gitStatusSuccess then
        if urlStatusMap.get url ≠ state then
          collectStatuses d (urlStatusMap.set url state)
            (urlStatusTargetURLMap.set url status.TargetURL) rest
        else collectStatuses d urlStatusMap urlStatusTargetURLMap rest
      else collectStatuses d urlStatusMap urlStatusTargetURLMap rest

/-- The `for _, url := range keys` loop of `checkPullRequest` that builds
`prStatuses`. -/
def buildPrStatuses (urlStatusMap urlStatusTargetURLMap : StringMap) : List GitStatus :=
  (SortedMapKeys urlStatusMap).map (fun url =>
    let state := urlStatusMap.get url
    let targetURL := urlStatusTargetURLMap.get url
    let targetURL := if targetURL = "" then url else targetURL
    { URL := targetURL, Status := state })

/-- The `for _, v := range urlStatusMap` loop of `checkPullRequest` that
computes `succeeded`. -/
def allSucceeded (urlStatusMap : StringMap) : Bool :=
  urlStatusMap.all (fun entry => entry.2 == gitStatusSuccess)

/-- The commit message of the automatic merge. -/
def mergeMessage : String := "jx promote automatically merged promotion PR"

/-- The part of `checkPullRequest` that follows a successful
`ListCommitStatus`: the calls made, and whether the function returns. -/
def checkCommitStatuses (d : Deps) (activity : PipelineActivity) (ns : String)
    (po : PromoteOptions) (env : Environment) (promoteKey : PromoteStepActivityKey)
    (statuses : List GitRepoStatus) : List Effect × Bool :=
  if statuses.length > 0 then
    match collectStatuses d [] [] statuses with
    | none => ([], true)
    | some (urlStatusMap, urlStatusTargetURLMap) =>
      let prStatuses := buildPrStatuses urlStatusMap urlStatusTargetURLMap
      let patched := Effect.onPromoteUpdate promoteKey (UpdatePatch.updateStatuses prStatuses)
      if allSucceeded urlStatusMap then
        let gitURL := activity.Spec.GitURL
        if gitURL = "" then ([patched], true)
        else
          match d.ParseGitURL gitURL with
          | (_, some _) => ([patched], true)
          | (gitInfo, none) =>
            let po := { po with GitInfo := gitInfo }
            let commented := Effect.commentOnIssues po ns env promoteKey
            match d.commentOnIssues po ns env promoteKey with
            | some _ => ([patched, commented], true)
            | none =>
              ([patched, commented,
                Effect.onPromoteUpdate promoteKey UpdatePatch.CompletePromotionUpdate], true)
      else ([patched], false)
  else ([], false)

/-- The branch of `checkPullRequest` for a pull request reported merged: the
calls made, and whether the function returns. -/
def checkMergedPullRequest (d : Deps) (activity : PipelineActivity)
    (environments : EnvironmentInterface) (ns : String) (gitProvider : GitProvider)
    (pr : GitPullRequest) (po : PromoteOptions) (envName : String) : List Effect × Bool :=
  match pr.MergeCommitSHA with
  | none => ([], false)
  | some mergeSha =>
    match environments.Get envName with
    | Except.error _ => ([Effect.environmentsGet envName], true)
    | Except.ok env =>
      let promoteKey := d.createPromoteKey po env
      let calls := [Effect.environmentsGet envName,
        Effect.onPromotePullRequest promoteKey (PullRequestPatch.mergedPR mergeSha),
        Effect.onPromoteUpdate promoteKey UpdatePatch.StartPromotionUpdate,
        Effect.listCommitStatus pr.Owner pr.Repo mergeSha]
      match gitProvider.ListCommitStatus pr.Owner pr.Repo mergeSha with
      | Except.error _ => (calls, false)
      | Except.ok statuses =>
        let r := checkCommitStatuses d activity ns po env promoteKey statuses
        (calls ++ r.1, r.2)

/-- The branch of `checkPullRequest` for a pull request not reported merged:
the calls made, and whether the function returns. -/
def checkOpenPullRequest (d : Deps) (o : ControllerWorkflowOptions) (gitProvider : GitProvider)
    (pr : GitPullRequest) : List Effect × Bool :=
  if d.IsClosed pr then ([], true)
  else
    let asked := Effect.pullRequestLastCommitStatus pr
    match gitProvider.PullRequestLastCommitStatus pr with
    | Except.error _ => ([asked], false)
    | Except.ok status =>
      if status = "in-progress" then ([asked], false)
      else if status = "success" then
        if ¬ o.NoMergePullRequest then
          ([asked, Effect.mergePullRequest pr mergeMessage
              (gitProvider.MergePullRequest pr mergeMessage)], false)
        else ([asked], false)
      else if status = "error" ∨ status = "failure" then ([asked], true)
      else ([asked], false)

/-- The end of the loop body of `checkPullRequest`: the rebase of a pull
request whose `Mergeable` flag is present and false. -/
def rebaseIfNotMergeable (d : Deps) (o : ControllerWorkflowOptions)
    (activity : PipelineActivity) (environments : EnvironmentInterface)
    (po : PromoteOptions) (envName : String) (pr : GitPullRequest) :
    ControllerWorkflowOptions × List Effect :=
  if pr.Mergeable = some false then
    match environments.Get envName with
    | Except.error _ => (o, [Effect.environmentsGet envName])
    | Except.ok env =>
      match createReleaseInfo d o activity env with
      | (none, o1) => (o1, [Effect.environmentsGet envName])
      | (some releaseInfo, o1) =>
        (o1, [Effect.environmentsGet envName, Effect.promoteViaPullRequest po env releaseInfo])
  else (o, [])

/-- How the body of the step loop of `checkPullRequest` ends: the loop goes on
to the next step, the function returns, or the goroutine panics. -/
inductive Control where
  | next
  | stop
  | panic
  deriving DecidableEq, Repr

/-- The outcome of (a part of) `checkPullRequest`: the options, the calls made
in order, and how it ended. -/
structure StepResult where
  o : ControllerWorkflowOptions
  effects : List Effect
  control : Control

/-- The body of the `for _, step := range activity.Spec.Steps` loop of
`checkPullRequest`. -/
def checkPullRequestStep (d : Deps) (o : ControllerWorkflowOptions)
    (activity : PipelineActivity) (environments : EnvironmentInterface) (ns : String)
    (step : PipelineActivityStep) : StepResult :=
  match step.Promote with
  | none => ⟨o, [], Control.next⟩
  | some promote =>
    if IsTerminated promote.Status then ⟨o, [], Control.next⟩
    else
      let envName := promote.Environment
      match promote.PullRequest with
      | none =>
        -- `pullRequestStep.PullRequestURL` is read before the nil check
        ⟨o, [], Control.panic⟩
      | some pullRequestStep =>
        let prURL := pullRequestStep.PullRequestURL
        if prURL = "" ∨ envName = "" then ⟨o, [], Control.next⟩
        else
          match createGitProviderForPR d o prURL with
          | (_, _, some _) => ⟨o, [], Control.stop⟩
          | (none, _, none) => ⟨o, [], Control.stop⟩
          | (some _, none, none) => ⟨o, [], Control.stop⟩
          | (some gitProvider, some gitInfo, none) =>
            match pullRequestURLToNumber prURL with
            | Except.error _ => ⟨o, [], Control.stop⟩
            | Except.ok prNumber =>
              let asked := Effect.getPullRequest gitInfo.Organisation gitInfo prNumber
              match gitProvider.GetPullRequest gitInfo.Organisation gitInfo prNumber with
              | Except.error _ => ⟨o, [asked], Control.next⟩
              | Except.ok pr =>
                let po := createPromoteOptionsFromActivity d activity envName
                let r :=
                  if pr.Merged = some true then
                    checkMergedPullRequest d activity environments ns gitProvider pr po envName
                  else checkOpenPullRequest d o gitProvider pr
                if r.2 then ⟨o, asked :: r.1, Control.stop⟩
                else
                  let t := rebaseIfNotMergeable d o activity environments po envName pr
                  ⟨t.1, asked :: (r.1 ++ t.2), Control.next⟩

/-- The `for _, step := range activity.Spec.Steps` loop of `checkPullRequest`. -/
def checkPullRequestLoop (d : Deps) (activity : PipelineActivity)
    (environments : EnvironmentInterface) (ns : String) :
    ControllerWorkflowOptions → List PipelineActivityStep → StepResult
  | o, [] => ⟨o, [], Control.next⟩
  | o, step :: rest =>
    let r := checkPullRequestStep d o activity environments ns step
    match r.control with
    | Control.next =>
      let r2 := checkPullRequestLoop d activity environments ns r.o rest
      ⟨r2.o, r.effects ++ r2.effects, r2.control⟩
    | Control.stop => r
    | Control.panic => r

/-- Go `checkPullRequest`; `Control.panic` in the result is a runtime panic,
anything else a normal return. -/
def checkPullRequest (d : Deps) (o : ControllerWorkflowOptions) (activity : PipelineActivity)
    (environments : EnvironmentInterface) (ns : String) : StepResult :=
  if ¬ isReleaseBranch o (d.BranchName activity) then ⟨o, [], Control.stop⟩
  else checkPullRequestLoop d activity environments ns o activity.Spec.Steps

/-- Whether a call patches the activity. -/
def Effect.isPatch : Effect → Bool
  | Effect.onPromotePullRequest _ _ => true
  | Effect.onPromoteUpdate _ _ => true
  | _ => false

/-- Whether a call only reads from the Git host or the resource store. -/
def Effect.isQuery : Effect → Bool
  | Effect.getPullRequest _ _ _ => true
  | Effect.environmentsGet _ => true
  | Effect.listCommitStatus _ _ _ => true
  | Effect.pullRequestLastCommitStatus _ => true
  | _ => false

/-- Whether a call asks the Git host to merge. -/
def Effect.isMerge : Effect → Bool
  | Effect.mergePullRequest _ _ _ => true
  | _ => false

/-- Whether a call invokes the promoter. -/
def Effect.isPromoterCall : Effect → Bool
  | Effect.promoteRun _ _ => true
  | Effect.promoteViaPullRequest _ _ _ => true
  | _ => false

/-! ## Specification-side notions and sample inputs -/

/-- The workflow name `onActivity` resolves: empty means `default`. -/
def resolvedWorkflowName (pipeline : PipelineActivity) : String :=
  if pipeline.Spec.Workflow = "" then "default" else pipeline.Spec.Workflow

/-- An activity that passes the admission of `onActivity` with workflow `flow`:
complete identity, non-terminal workflow status, release branch, and a workflow
that is either cached or the default one just created. -/
structure Admitted (d : Deps) (o : ControllerWorkflowOptions) (pipeline : PipelineActivity)
    (ns : String) (flow : Workflow) : Prop where
  repo : d.RepositoryName pipeline ≠ ""
  version : pipeline.Spec.Version ≠ ""
  build : pipeline.Spec.Build ≠ ""
  pipelineName : pipeline.Spec.Pipeline ≠ ""
  running : IsTerminated pipeline.Spec.WorkflowStatus = false
  branch : d.BranchName pipeline = "master"
  resolved : o.workflowMap (resolvedWorkflowName pipeline) = some flow ∨
    (resolvedWorkflowName pipeline = "default" ∧ o.workflowMap "default" = none ∧
      d.CreateDefaultWorkflow ns = (some flow, none))

/-- The last promote step of the activity that names environment `envName`. -/
def lastPromoteStepFor (pipeline : PipelineActivity) (envName : String) :
    Option PromoteActivityStep :=
  ((pipeline.Spec.Steps.filterMap (fun step => step.Promote)).filter
    (fun promote => promote.Environment == envName)).getLast?

/-- The promote environments of the activity's steps are pairwise distinct
(the uniqueness the data model asks of an activity). -/
def UniquePromoteEnvironments (pipeline : PipelineActivity) : Prop :=
  ((pipeline.Spec.Steps.filterMap (fun step => step.Promote)).map
    (fun promote => promote.Environment)).Nodup

/-- Whether the activity has some promote step for `envName` with a non-empty
pull request URL. -/
def hasPullRequestURL (pipeline : PipelineActivity) (envName : String) : Bool :=
  pipeline.Spec.Steps.any (fun step =>
    match step.Promote with
    | some promote =>
      promote.Environment == envName &&
        (match promote.PullRequest with
         | some pullRequest => pullRequest.PullRequestURL != ""
         | none => false)
    | none => false)

/-- A promote step that `checkPullRequest` polls, and the pull request the
Git host reports for it: the step is a non-terminal promotion with a recorded
pull request URL and an environment, the Git provider and the pull request
number are derived from the URL, and `GetPullRequest` answers `pr`. -/
structure Polled (d : Deps) (o : ControllerWorkflowOptions) (step : PipelineActivityStep)
    (promote : PromoteActivityStep) (pullRequestStep : PromotePullRequestStep)
    (gitProvider : GitProvider) (gitInfo : GitRepositoryInfo) (prNumber : Int)
    (pr : GitPullRequest) : Prop where
  isPromote : step.Promote = some promote
  running : IsTerminated promote.Status = false
  hasPullRequest : promote.PullRequest = some pullRequestStep
  url : pullRequestStep.PullRequestURL ≠ ""
  env : promote.Environment ≠ ""
  provider : createGitProviderForPR d o pullRequestStep.PullRequestURL =
    (some gitProvider, some gitInfo, none)
  number : pullRequestURLToNumber pullRequestStep.PullRequestURL = Except.ok prNumber
  reported : gitProvider.GetPullRequest gitInfo.Organisation gitInfo prNumber = Except.ok pr

/-- The statuses listed for `url`, in listing order. -/
def statusesFor (statuses : List GitRepoStatus) (url : String) : List GitRepoStatus :=
  statuses.filter (fun status => status.URL == url)

/-- The state the statuses listed for one URL resolve to: `success` if one of
them is `success`, otherwise the state of the last one. -/
def resolvedState (listed : List GitRepoStatus) : String :=
  if listed.any (fun status => status.State == gitStatusSuccess) then gitStatusSuccess
  else
    match listed.getLast? with
    | some status => status.State
    | none => ""

/-- The status at which the resolved state of one URL was last stored: the
first `success` if there is one, otherwise the first status of the final run
of statuses that share the last state. -/
def storedAt (listed : List GitRepoStatus) : Option GitRepoStatus :=
  match listed.find? (fun status => status.State == gitStatusSuccess) with
  | some status => some status
  | none =>
    match listed.reverse with
    | [] => none
    | last :: before =>
      ((last :: before).takeWhile (fun status => status.State == last.State)).getLast?

/-- The target URL recorded when the resolved state was last stored. -/
def resolvedTargetURL (listed : List GitRepoStatus) : String :=
  match storedAt listed with
  | some status => status.TargetURL
  | none => ""

/-- The entry the claim gives `url` in the patched statuses: the resolved
state, and the recorded target URL or `url` itself when that is empty. -/
def claimedGitStatus (statuses : List GitRepoStatus) (url : String) : GitStatus where
  URL :=
    if resolvedTargetURL (statusesFor statuses url) = "" then url
    else resolvedTargetURL (statusesFor statuses url)
  Status := resolvedState (statusesFor statuses url)

/-- The invariant of the status loop after the statuses `seen`: the keys of
`urlStatusMap` are distinct and are the URLs listed with a non-empty state,
and the two maps hold the resolved state and its recorded target URL. -/
structure StatusInvariant (seen : List GitRepoStatus)
    (urlStatusMap urlStatusTargetURLMap : StringMap) : Prop where
  nodup : (urlStatusMap.map Prod.fst).Nodup
  keys : ∀ url, url ∈ urlStatusMap.map Prod.fst ↔
    ∃ status ∈ seen, status.URL = url ∧ status.State ≠ ""
  state : ∀ url, urlStatusMap.get url = resolvedState (statusesFor seen url)
  target : ∀ url, url ∈ urlStatusMap.map Prod.fst →
    urlStatusTargetURLMap.get url = resolvedTargetURL (statusesFor seen url)

/-- Sample collaborators: the repository name is the recorded Git repository,
every activity is on `master`, the default workflow cannot be created. -/
def sampleDeps : Deps where
  RepositoryName := fun pipeline => pipeline.Spec.GitRepository
  BranchName := fun _ => "master"
  IsFailed := fun status => status.State == "error" || status.State == "failure"
  IsClosed := fun _ => false
  DefaultHelmRepositoryURL := "http://jenkins-x-chartmuseum:8080"
  LocalHelmRepoName := "releases"
  ParseGitURL := fun url => (some { URL := url, Organisation := "acme", Name := "acme-web" }, none)
  createGitProviderForURLWithoutKind := fun _ => (none, none, some "no provider")
  CreateDefaultWorkflow := fun _ => (none, some "cannot create")
  createPromoteKey := fun po env =>
    { Name := po.Application, Pipeline := po.Pipeline, Build := po.Build, Environment := env.Name }
  commentOnIssues := fun _ _ _ _ => none
  Run := fun _ => none

/-- Sample workflow: promote to `staging`, then to `prod` once `staging` has
succeeded. -/
def sampleWorkflow : Workflow where
  Name := "default"
  Spec := { Steps := [
    { Promote := some { Environment := "staging" }, Preconditions := { Environments := [] } },
    { Promote := some { Environment := "prod" },
      Preconditions := { Environments := ["staging"] } }] }

/-- Sample activity `acme-web-master-7` with the given workflow status and
steps. -/
def sampleActivity (workflowStatus : ActivityStatusType) (steps : List PipelineActivityStep) :
    PipelineActivity where
  Name := "acme-web-master-7"
  Spec := {
    Pipeline := "acme/acme-web/master"
    Build := "7"
    Version := "1.2.3"
    GitRepository := "acme-web"
    GitURL := "https://git.example/acme/acme-web.git"
    Workflow := ""
    WorkflowStatus := workflowStatus
    Steps := steps }

/-- Sample controller state with the given maps. -/
def sampleOptions (workflowMap : GoMap Workflow) (pipelineMap : GoMap PipelineActivity) :
    ControllerWorkflowOptions where
  NoMergePullRequest := false
  LocalHelmRepoName := "jx"
  ReleaseName := ""
  FakeGitProvider := none
  workflowMap := workflowMap
  pipelineMap := pipelineMap

/-- The sample activity after its promotion to `staging` has succeeded: one
promote step for `staging` with a recorded pull request URL. -/
def promotedStagingActivity : PipelineActivity :=
  sampleActivity ActivityStatusTypeRunning [
    { Promote := some {
        Environment := "staging"
        Status := ActivityStatusTypeSucceeded
        PullRequest := some {
          PullRequestURL := "https://git.example/acme/env-staging/pull/42"
          MergeCommitSHA := "abc" } } }]

/-- Collaborators for which the creation of the default workflow succeeds. -/
def creatingDeps : Deps :=
  { sampleDeps with CreateDefaultWorkflow := fun _ => (some sampleWorkflow, none) }

/-- The sample repository info of `acme/acme-web`. -/
def sampleGitInfo : GitRepositoryInfo where
  URL := "https://git.example/acme/acme-web.git"
  Organisation := "acme"
  Name := "acme-web"

/-- A sample pull request `acme/acme-web#42` with the given flags. -/
def samplePullRequest (merged : Option Bool) (mergeCommitSHA : Option String)
    (mergeable : Option Bool) : GitPullRequest where
  URL := "https://git.example/acme/acme-web/pull/42"
  Owner := "acme"
  Repo := "acme-web"
  LastCommitSha := "def"
  Merged := merged
  MergeCommitSHA := mergeCommitSHA
  Mergeable := mergeable

/-- A sample Git provider that reports the given pull request, commit statuses
and last-commit status, and refuses to merge. -/
def sampleGitProvider (pr : GitPullRequest) (statuses : List GitRepoStatus)
    (lastCommitStatus : String) : GitProvider where
  GetPullRequest := fun _ _ _ => Except.ok pr
  ListCommitStatus := fun _ _ _ => Except.ok statuses
  PullRequestLastCommitStatus := fun _ => Except.ok lastCommitStatus
  MergePullRequest := fun _ _ => some "no karma"

/-- Sample collaborators whose Git provider lookup yields the given provider. -/
def providerDeps (gitProvider : GitProvider) : Deps :=
  { sampleDeps with
    createGitProviderForURLWithoutKind := fun _ => (some gitProvider, some sampleGitInfo, none) }

/-- The sample environment store: every environment lives in namespace
`staging-ns`. -/
def sampleEnvironments : EnvironmentInterface where
  Get := fun name => Except.ok { Name := name, Spec := { Namespace := "staging-ns" } }

/-- The sample `staging` environment. -/
def stagingEnvironment : Environment where
  Name := "staging"
  Spec := { Namespace := "staging-ns" }

/-- A running promote step for `staging` with pull request
`https://git.example/acme/acme-web/pull/42`. -/
def stagingStep : PipelineActivityStep where
  Promote := some {
    Environment := "staging"
    Status := ActivityStatusTypeRunning
    PullRequest := some {
      PullRequestURL := "https://git.example/acme/acme-web/pull/42"
      MergeCommitSHA := "" } }

/-- The commit statuses of scenario S2: both green, the second without a
target URL. -/
def greenStatuses : List GitRepoStatus :=
  [{ URL := "ci", TargetURL := "ci-link", State := "success", Description := "" },
   { URL := "scan", TargetURL := "", State := "success", Description := "" }]

/-- The promote options the reconciler builds for the sample activity and
`staging`. -/
def stagingPromoteOptions : PromoteOptions :=
  createPromoteOptions sampleDeps "acme-web" "staging" "acme/acme-web/master" "7" "1.2.3"

/-- The key under which the sample activity's `staging` promotion is patched. -/
def stagingPromoteKey : PromoteStepActivityKey where
  Name := "acme-web"
  Pipeline := "acme/acme-web/master"
  Build := "7"
  Environment := "staging"

/-- The commit statuses of scenario S3: the green ones and a failed scan. -/
def redStatuses : List GitRepoStatus :=
  greenStatuses ++
    [{ URL := "scan", TargetURL := "x", State := "failure", Description := "scan failed" }]

/-- The status lists that the update patches of a trace set, in order. -/
def patchedStatuses : List Effect → List (List GitStatus)
  | [] => []
  | Effect.onPromoteUpdate _ (UpdatePatch.updateStatuses prStatuses) :: rest =>
    prStatuses :: patchedStatuses rest
  | _ :: rest => patchedStatuses rest

/-- The commit statuses of one URL whose state goes back and forth, and of one
URL that turns green before a later pending status. -/
def mixedStatuses : List GitRepoStatus :=
  [{ URL := "scan", TargetURL := "s1", State := "pending", Description := "" },
   { URL := "ci", TargetURL := "c1", State := "success", Description := "" },
   { URL := "scan", TargetURL := "s2", State := "running", Description := "" },
   { URL := "ci", TargetURL := "c2", State := "pending", Description := "" },
   { URL := "scan", TargetURL := "", State := "pending", Description := "" },
   { URL := "scan", TargetURL := "s4", State := "pending", Description := "" }]

/-- Sample collaborators as `providerDeps`, except that commenting on the
issues fails. -/
def failingCommentDeps (gitProvider : GitProvider) : Deps :=
  { providerDeps gitProvider with commentOnIssues := fun _ _ _ _ => some "cannot comment" }

/-- A pending promote step for `staging` without a pull request sub-record. -/
def pendingStep : PipelineActivityStep where
  Promote := some {
    Environment := "staging"
    Status := ActivityStatusTypePending
    PullRequest := none }

/-- A running promote step for `staging` whose pull request URL ends in a
segment that is not a number. -/
def unparsableStep : PipelineActivityStep where
  Promote := some {
    Environment := "staging"
    Status := ActivityStatusTypeRunning
    PullRequest := some {
      PullRequestURL := "https://git.example/acme/acme-web/pull/abc"
      MergeCommitSHA := "" } }

/-- A running promote step for `production` with pull request
`https://git.example/acme/acme-web/pull/43`. -/
def productionStep : PipelineActivityStep where
  Promote := some {
    Environment := "production"
    Status := ActivityStatusTypeRunning
    PullRequest := some {
      PullRequestURL := "https://git.example/acme/acme-web/pull/43"
      MergeCommitSHA := "" } }

/-- Every URL that is listed with a non-empty state resolves to `success`:
what "every entry of `urlStatusMap` has state `success`" says of the listed
statuses. -/
def AllResolvedSuccess (statuses : List GitRepoStatus) : Prop :=
  ∀ url, (∃ status ∈ statuses, status.URL = url ∧ status.State ≠ "") →
    resolvedState (statusesFor statuses url) = gitStatusSuccess

/-- Whether a character is one of the decimal digits `0` to `9`. -/
def isDecimalDigit (c : Char) : Bool :=
  decide (48 ≤ c.toNat ∧ c.toNat ≤ 57)

/-- A decimal integer: an optional sign `+` or `-` followed by one or more
decimal digits. -/
def IsDecimalInteger (s : String) : Prop :=
  ∃ digits : List Char, digits ≠ [] ∧ (∀ c ∈ digits, isDecimalDigit c = true) ∧
    (s.data = digits ∨ s.data = '+' :: digits ∨ s.data = '-' :: digits)

/-- The pull request URL `base/seg/n`, with `n` in decimal. -/
def pullRequestURLOf (base seg : String) (n : Nat) : String :=
  base ++ "/" ++ seg ++ "/" ++ Nat.repr n

/-! ## Theorems -/

theorem canExecuteStepLoop_iff (statusMap : GoMap PromoteActivityStep) (envs : List String) :
    canExecuteStepLoop statusMap envs = true ↔
      ∀ envName ∈ envs, ∃ status, statusMap envName = some status ∧
        status.Status = ActivityStatusTypeSucceeded := by
  induction envs with
  | nil => simp [canExecuteStepLoop]
  | cons e rest ih =>
    unfold canExecuteStepLoop
    cases hm : statusMap e with
    | none => simp [hm]
    | some st =>
      by_cases hs : st.Status = ActivityStatusTypeSucceeded
      · simp [hm, hs, ih]
      · simp [hm, hs]

/-- C1: `canExecuteStep` returns true exactly when every environment listed in
the step's preconditions has an entry in the promote-status map whose overall
status is Succeeded (hence true for a step without preconditions), and its
result is the same for any workflow, activity and target environment. -/
theorem canExecuteStep_iff_preconditions_succeeded (workflow : Workflow)
    (activity : PipelineActivity) (step : WorkflowStep)
    (statusMap : GoMap PromoteActivityStep) (promoteToEnv : String) :
    (canExecuteStep workflow activity step statusMap promoteToEnv = true ↔
      ∀ envName ∈ step.Preconditions.Environments, ∃ status,
        statusMap envName = some status ∧ status.Status = ActivityStatusTypeSucceeded) ∧
    (step.Preconditions.Environments = [] →
      canExecuteStep workflow activity step statusMap promoteToEnv = true) ∧
    (∀ (workflow2 : Workflow) (activity2 : PipelineActivity) (promoteToEnv2 : String),
      canExecuteStep workflow2 activity2 step statusMap promoteToEnv2 =
        canExecuteStep workflow activity step statusMap promoteToEnv) := by
  refine ⟨canExecuteStepLoop_iff statusMap _, ?_, ?_⟩
  · intro h
    simp [canExecuteStep, h, canExecuteStepLoop]
  · intro _ _ _
    rfl


/-! ### Promotion driver -/

theorem promoterRuns_append (xs ys : List Effect) :
    promoterRuns (xs ++ ys) = promoterRuns xs ++ promoterRuns ys := by
  induction xs with
  | nil => rfl
  | cons x xs ih => cases x <;> simp [promoterRuns, ih]

theorem createPromoteStatusLoop_lookup (steps : List PipelineActivityStep)
    (answer : GoMap PromoteActivityStep) (envName : String) (henv : envName ≠ "") :
    createPromoteStatusLoop answer steps envName =
      match ((steps.filterMap (fun step => step.Promote)).filter
          (fun promote => promote.Environment == envName)).getLast? with
      | some promote => some promote
      | none => answer envName := by
  induction steps generalizing answer with
  | nil => simp [createPromoteStatusLoop]
  | cons step rest ih =>
    cases hp : step.Promote with
    | none =>
      rw [createPromoteStatusLoop, List.filterMap_cons_none hp]
      simp only [hp]
      exact ih answer
    | some promote =>
      rw [createPromoteStatusLoop, List.filterMap_cons_some hp, List.filter_cons]
      simp only [hp]
      by_cases he : promote.Environment = ""
      · have hne : (promote.Environment == envName) = false := by
          rw [he]; exact beq_false_of_ne (Ne.symm henv)
        rw [hne]
        simp only [he, ne_eq, not_true_eq_false, if_false]
        exact ih answer
      · simp only [ne_eq, he, not_false_eq_true, if_true]
        rw [ih]
        by_cases hk : promote.Environment = envName
        · have hb : (promote.Environment == envName) = true := by rw [hk]; exact beq_self_eq_true _
          rw [hb]
          simp only [if_true]
          cases hl : (List.filter (fun promote => promote.Environment == envName)
              (List.filterMap (fun step => step.Promote) rest)) with
          | nil => simp [GoMap.set, hk]
          | cons a l =>
            rw [List.getLast?_cons_cons]
            cases hg : (a :: l).getLast? with
            | none => simp at hg
            | some q => rfl
        · have hb : (promote.Environment == envName) = false := beq_false_of_ne hk
          rw [hb]
          simp [GoMap.set, Ne.symm hk]

/-- The promote-status map holds, for a non-empty environment name, the last
promote step of the activity that names it. -/
theorem createPromoteStatus_eq_lastPromoteStepFor (pipeline : PipelineActivity)
    (envName : String) (henv : envName ≠ "") :
    createPromoteStatus pipeline envName = lastPromoteStepFor pipeline envName := by
  unfold createPromoteStatus lastPromoteStepFor
  rw [createPromoteStatusLoop_lookup _ _ _ henv]
  cases ((pipeline.Spec.Steps.filterMap (fun step => step.Promote)).filter
      (fun promote => promote.Environment == envName)).getLast? <;> simp [GoMap.empty]

/-- What `onActivity` does with an admitted activity: it stores the activity in
`pipelineMap`, leaves every other field alone, and walks the workflow steps,
after the creation call when the default workflow had to be created. -/
theorem onActivity_admitted (d : Deps) (o : ControllerWorkflowOptions)
    (pipeline : PipelineActivity) (ns : String) (flow : Workflow)
    (h : Admitted d o pipeline ns flow) :
    ∃ pre : List Effect, (pre = [] ∨ pre = [Effect.createDefaultWorkflow ns]) ∧
      onActivity d o pipeline ns =
        ({ o with pipelineMap := o.pipelineMap.set pipeline.Name pipeline },
          pre ++ onActivitySteps d flow pipeline (createPromoteStatus pipeline)
            (d.RepositoryName pipeline) pipeline.Spec.Pipeline pipeline.Spec.Build
            pipeline.Spec.Version flow.Spec.Steps) := by
  obtain ⟨h1, h2, h3, h4, h5, h6, h7⟩ := h
  have hflow : onActivityFlow d o pipeline (some flow) =
      ({ o with pipelineMap := o.pipelineMap.set pipeline.Name pipeline },
        onActivitySteps d flow pipeline (createPromoteStatus pipeline)
          (d.RepositoryName pipeline) pipeline.Spec.Pipeline pipeline.Spec.Build
          pipeline.Spec.Version flow.Spec.Steps) := by
    simp [onActivityFlow, isReleaseBranch, h6]
  unfold resolvedWorkflowName at h7
  rcases h7 with h7 | ⟨hn, hm, hc⟩
  · refine ⟨[], Or.inl rfl, ?_⟩
    simp [onActivity, h1, h2, h3, h4, h5, h7, hflow]
  · refine ⟨[Effect.createDefaultWorkflow ns], Or.inr rfl, ?_⟩
    simp [onActivity, h1, h2, h3, h4, h5, hn, hm, hc, hflow]

theorem promoterRuns_onActivitySteps (d : Deps) (flow : Workflow) (pipeline : PipelineActivity)
    (promoteStatusMap : GoMap PromoteActivityStep)
    (repoName pipelineName build version : String) (steps : List WorkflowStep) :
    promoterRuns (onActivitySteps d flow pipeline promoteStatusMap repoName pipelineName build
        version steps) =
      steps.filterMap (fun step =>
        match step.Promote with
        | some promote =>
          if promote.Environment ≠ "" ∧
              lacksPullRequestURL (promoteStatusMap promote.Environment) = true ∧
              canExecuteStep flow pipeline step promoteStatusMap promote.Environment = true then
            some (createPromoteOptions d repoName promote.Environment pipelineName build version)
          else none
        | none => none) := by
  induction steps with
  | nil => rfl
  | cons step rest ih =>
    simp only [onActivitySteps, promoterRuns_append, ih, List.filterMap_cons]
    cases hp : step.Promote with
    | none => simp [onActivityStep, hp, promoterRuns]
    | some promote =>
      by_cases h1 : promote.Environment = ""
      · simp [onActivityStep, hp, promoterRuns, h1]
      · by_cases h2 : lacksPullRequestURL (promoteStatusMap promote.Environment) = true
        · by_cases h3 :
            canExecuteStep flow pipeline step promoteStatusMap promote.Environment = true
          · simp [onActivityStep, hp, promoterRuns, h1, h2, h3]
          · simp [onActivityStep, hp, promoterRuns, h1, h2, h3]
        · simp [onActivityStep, hp, promoterRuns, h1, h2]

/-- The promoter invocations of `onActivity` on an admitted activity: one per
workflow step, in declared order, whose promote payload names a non-empty
environment for which the last promote step of the activity records no pull
request URL and whose preconditions hold. -/
theorem promoterRuns_onActivity (d : Deps) (o : ControllerWorkflowOptions)
    (pipeline : PipelineActivity) (ns : String) (flow : Workflow)
    (h : Admitted d o pipeline ns flow) :
    promoterRuns (onActivity d o pipeline ns).2 =
      flow.Spec.Steps.filterMap (fun step =>
        match step.Promote with
        | some promote =>
          if promote.Environment ≠ "" ∧
              lacksPullRequestURL (lastPromoteStepFor pipeline promote.Environment) = true ∧
              canExecuteStep flow pipeline step (createPromoteStatus pipeline)
                promote.Environment = true then
            some (createPromoteOptions d (d.RepositoryName pipeline) promote.Environment
              pipeline.Spec.Pipeline pipeline.Spec.Build pipeline.Spec.Version)
          else none
        | none => none) := by
  obtain ⟨pre, hpre, heq⟩ := onActivity_admitted d o pipeline ns flow h
  have hp : promoterRuns pre = [] := by
    rcases hpre with rfl | rfl <;> rfl
  rw [heq]
  simp only [promoterRuns_append, hp, List.nil_append, promoterRuns_onActivitySteps]
  apply List.filterMap_congr
  intro step _
  cases hs : step.Promote with
  | none => rfl
  | some promote =>
    by_cases he : promote.Environment = ""
    · simp [he]
    · simp only [createPromoteStatus_eq_lastPromoteStepFor pipeline _ he]

theorem any_promote_eq (steps : List PipelineActivityStep) (f : PromoteActivityStep → Bool) :
    steps.any (fun step =>
        match step.Promote with
        | some promote => f promote
        | none => false) =
      (steps.filterMap (fun step => step.Promote)).any f := by
  induction steps with
  | nil => rfl
  | cons step rest ih =>
    cases hp : step.Promote with
    | none => simp [List.filterMap_cons_none hp, List.any_cons, hp, ih]
    | some promote => simp [List.filterMap_cons_some hp, List.any_cons, hp, ih]

theorem lacksPullRequestURL_getLast_filter (promotes : List PromoteActivityStep)
    (envName : String)
    (hnodup : (promotes.map (fun promote => promote.Environment)).Nodup) :
    lacksPullRequestURL
        ((promotes.filter (fun promote => promote.Environment == envName)).getLast?) =
      !(promotes.any (fun promote =>
          promote.Environment == envName &&
            (match promote.PullRequest with
             | some pullRequest => pullRequest.PullRequestURL != ""
             | none => false))) := by
  induction promotes with
  | nil => rfl
  | cons q rest ih =>
    simp only [List.map_cons, List.nodup_cons] at hnodup
    by_cases hq : q.Environment = envName
    · have hnone : ∀ p ∈ rest, ¬ p.Environment = envName := by
        intro p hp he
        exact hnodup.1 (List.mem_map.mpr ⟨p, hp, he.trans hq.symm⟩)
      have hfilter : rest.filter (fun promote => promote.Environment == envName) = [] := by
        rw [List.filter_eq_nil_iff]
        intro p hp
        simpa using hnone p hp
      have hany : rest.any (fun promote =>
          promote.Environment == envName &&
            (match promote.PullRequest with
             | some pullRequest => pullRequest.PullRequestURL != ""
             | none => false)) = false := by
        rw [List.any_eq_false]
        intro p hp
        simp [hnone p hp]
      rw [List.filter_cons, List.any_cons, hany, hfilter]
      simp only [hq, beq_self_eq_true, if_true, List.getLast?_singleton, Bool.true_and,
        Bool.or_false]
      unfold lacksPullRequestURL
      cases hpr : q.PullRequest with
      | none => simp [hpr]
      | some pullRequest =>
        simp only [hpr]
        cases hu : (pullRequest.PullRequestURL == "") <;> simp [bne, hu]
    · have hb : (q.Environment == envName) = false := beq_false_of_ne hq
      rw [List.filter_cons, List.any_cons, hb]
      simp only [Bool.false_and, Bool.false_or, Bool.false_eq_true, if_false]
      exact ih hnodup.2

/-- For an activity whose promote environments are unique, the last promote
step for an environment lacks a pull request URL exactly when no promote step
of the activity for that environment records one. -/
theorem lacksPullRequestURL_lastPromoteStepFor (pipeline : PipelineActivity)
    (envName : String) (hunique : UniquePromoteEnvironments pipeline) :
    lacksPullRequestURL (lastPromoteStepFor pipeline envName) =
      !hasPullRequestURL pipeline envName := by
  unfold lastPromoteStepFor hasPullRequestURL
  rw [lacksPullRequestURL_getLast_filter _ envName hunique]
  congr 1
  exact (any_promote_eq pipeline.Spec.Steps _).symm

/-- What the promoter returns does not change which steps `onActivity`
promotes. -/
theorem promoterRuns_onActivity_run_independent (d : Deps) (o : ControllerWorkflowOptions)
    (pipeline : PipelineActivity) (ns : String) (flow : Workflow)
    (h : Admitted d o pipeline ns flow) (run : PromoteOptions → Option String) :
    promoterRuns (onActivity { d with Run := run } o pipeline ns).2 =
      promoterRuns (onActivity d o pipeline ns).2 := by
  have h2 : Admitted { d with Run := run } o pipeline ns flow :=
    ⟨h.repo, h.version, h.build, h.pipelineName, h.running, h.branch, h.resolved⟩
  rw [promoterRuns_onActivity d o pipeline ns flow h,
    promoterRuns_onActivity _ o pipeline ns flow h2]
  rfl

/-- C2: on an admitted activity (whose promote environments are unique, as the
data model requires) `onActivity` invokes the promoter exactly once for each
workflow step, in declared order, that carries a promote payload with a
non-empty environment E such that (i) the activity has no promote step for E
with a non-empty pull request URL and (ii) `canExecuteStep` holds for the
step; it invokes the promoter for no other step; the promoted steps are the
same whatever the promoter returns; and when every promoted environment of the
workflow has a recorded pull request URL in the activity, no promoter call is
made. -/
theorem onActivity_promotes_steps_without_pull_request_url (d : Deps)
    (o : ControllerWorkflowOptions) (pipeline : PipelineActivity) (ns : String)
    (flow : Workflow) (h : Admitted d o pipeline ns flow)
    (hunique : UniquePromoteEnvironments pipeline) :
    promoterRuns (onActivity d o pipeline ns).2 =
      flow.Spec.Steps.filterMap (fun step =>
        match step.Promote with
        | some promote =>
          if promote.Environment ≠ "" ∧
              hasPullRequestURL pipeline promote.Environment = false ∧
              canExecuteStep flow pipeline step (createPromoteStatus pipeline)
                promote.Environment = true then
            some (createPromoteOptions d (d.RepositoryName pipeline) promote.Environment
              pipeline.Spec.Pipeline pipeline.Spec.Build pipeline.Spec.Version)
          else none
        | none => none) ∧
    (∀ run : PromoteOptions → Option String,
      promoterRuns (onActivity { d with Run := run } o pipeline ns).2 =
        promoterRuns (onActivity d o pipeline ns).2) ∧
    ((∀ step ∈ flow.Spec.Steps, ∀ promote, step.Promote = some promote →
        promote.Environment ≠ "" →
        hasPullRequestURL pipeline promote.Environment = true) →
      promoterRuns (onActivity d o pipeline ns).2 = []) := by
  have hruns : promoterRuns (onActivity d o pipeline ns).2 =
      flow.Spec.Steps.filterMap (fun step =>
        match step.Promote with
        | some promote =>
          if promote.Environment ≠ "" ∧
              hasPullRequestURL pipeline promote.Environment = false ∧
              canExecuteStep flow pipeline step (createPromoteStatus pipeline)
                promote.Environment = true then
            some (createPromoteOptions d (d.RepositoryName pipeline) promote.Environment
              pipeline.Spec.Pipeline pipeline.Spec.Build pipeline.Spec.Version)
          else none
        | none => none) := by
    rw [promoterRuns_onActivity d o pipeline ns flow h]
    apply List.filterMap_congr
    intro step _
    cases hs : step.Promote with
    | none => rfl
    | some promote =>
      simp only [lacksPullRequestURL_lastPromoteStepFor pipeline _ hunique,
        Bool.not_eq_true']
  refine ⟨hruns, promoterRuns_onActivity_run_independent d o pipeline ns flow h, ?_⟩
  intro hall
  rw [hruns]
  apply List.filterMap_eq_nil_iff.mpr
  intro step hmem
  cases hs : step.Promote with
  | none => rfl
  | some promote =>
    by_cases he : promote.Environment = ""
    · simp [he]
    · simp [hall step hmem promote hs he]

/-- Witness for C2: the sample activity whose `staging` promotion has succeeded
with a recorded pull request URL, under the cached sample workflow; `staging`
is not promoted again and `prod`, whose precondition now holds, is promoted
once. -/
theorem onActivity_promotes_steps_without_pull_request_url_witness :
    promoterRuns (onActivity sampleDeps
        (sampleOptions (GoMap.empty.set "default" sampleWorkflow) GoMap.empty)
        promotedStagingActivity "jx").2 =
      [createPromoteOptions sampleDeps "acme-web" "prod" "acme/acme-web/master" "7"
        "1.2.3"] :=
  (onActivity_promotes_steps_without_pull_request_url sampleDeps
    (sampleOptions (GoMap.empty.set "default" sampleWorkflow) GoMap.empty)
    promotedStagingActivity "jx" sampleWorkflow
    ⟨by decide, by decide, by decide, by decide, by decide, by decide,
      Or.inl (by decide)⟩
    (by unfold UniquePromoteEnvironments; decide)).1.trans (by decide)

/-! ### Activity indexer -/

/-- With complete identity and a terminal workflow status `onActivity` does
nothing at all: the controller state, `pipelineMap` included, is returned as it
was and no call is made. -/
theorem onActivity_terminated (d : Deps) (o : ControllerWorkflowOptions)
    (pipeline : PipelineActivity) (ns : String)
    (hrepo : d.RepositoryName pipeline ≠ "") (hversion : pipeline.Spec.Version ≠ "")
    (hbuild : pipeline.Spec.Build ≠ "") (hpipeline : pipeline.Spec.Pipeline ≠ "")
    (hterm : IsTerminated pipeline.Spec.WorkflowStatus = true) :
    onActivity d o pipeline ns = (o, []) := by
  simp [onActivity, hrepo, hversion, hbuild, hpipeline, hterm]

/-- With a non-terminal workflow status and a branch other than `master`,
`onActivity` removes the activity from `pipelineMap` and never calls the
promoter. -/
theorem onActivity_non_release_branch (d : Deps) (o : ControllerWorkflowOptions)
    (pipeline : PipelineActivity) (ns : String)
    (hrun : IsTerminated pipeline.Spec.WorkflowStatus = false)
    (hbranch : d.BranchName pipeline ≠ "master") :
    (onActivity d o pipeline ns).1.pipelineMap pipeline.Name = none ∧
      promoterRuns (onActivity d o pipeline ns).2 = [] := by
  have hflow : ∀ flow, onActivityFlow d o pipeline flow = (removePipelineActivity o pipeline, []) := by
    intro flow
    cases flow <;> simp [onActivityFlow, isReleaseBranch, hbranch]
  have hrem : (removePipelineActivity o pipeline).pipelineMap pipeline.Name = none := by
    simp [removePipelineActivity, GoMap.delete]
  unfold onActivity
  simp only [hrun, hflow]
  simp only [Bool.false_eq_true, not_false_eq_true, if_true]
  repeat' split
  all_goals exact ⟨hrem, rfl⟩

/-- C3: an activity with complete identity on `master` whose workflow status is
the terminal `succeeded`, and which an earlier event had inserted into
`pipelineMap`, is still in `pipelineMap` after `onActivity`: the terminal case
skips the removal that every other rejected case performs. -/
theorem onActivity_keeps_terminated_activity :
    IsTerminated (sampleActivity ActivityStatusTypeSucceeded []).Spec.WorkflowStatus = true ∧
      (onActivity sampleDeps
          (sampleOptions (GoMap.empty.set "default" sampleWorkflow)
            (GoMap.empty.set "acme-web-master-7" (sampleActivity ActivityStatusTypeRunning [])))
          (sampleActivity ActivityStatusTypeSucceeded []) "jx").1.pipelineMap "acme-web-master-7" =
        some (sampleActivity ActivityStatusTypeRunning []) := by
  decide

/-- C10: after the delete handler of the activity watch has run for an
activity, `pipelineMap` still holds the entry under the activity's name: the
handler's body is empty. -/
theorem pipelineDeleteFunc_keeps_activity :
    (pipelineDeleteFunc
        (sampleOptions GoMap.empty
          (GoMap.empty.set "acme-web-master-7" (sampleActivity ActivityStatusTypeRunning [])))
        (some (sampleActivity ActivityStatusTypeRunning []))).1.pipelineMap "acme-web-master-7" =
      some (sampleActivity ActivityStatusTypeRunning []) := by
  decide

/-- The delete handler of the workflow watch does remove the workflow's entry
from `workflowMap`. -/
theorem deleteWorkflowObjb_removes (o : ControllerWorkflowOptions) (workflow : Workflow) :
    (deleteWorkflowObjb o (some workflow)).workflowMap workflow.Name = none := by
  simp [deleteWorkflowObjb, onWorkflowDelete, GoMap.delete]

/-! ### Workflow cache -/

/-- C9 (amended): for an activity with complete identity, non-terminal status
and branch `master` whose workflow name is empty or `default`, if `workflowMap`
has no entry for `default` and the creation of the default workflow succeeds,
`onActivity` admits the activity into `pipelineMap` and drives the created
workflow's steps, but leaves `workflowMap` as it was: it still has no entry for
`default` on return. -/
theorem onActivity_default_workflow_not_cached (d : Deps) (o : ControllerWorkflowOptions)
    (pipeline : PipelineActivity) (ns : String) (flow : Workflow)
    (hrepo : d.RepositoryName pipeline ≠ "") (hversion : pipeline.Spec.Version ≠ "")
    (hbuild : pipeline.Spec.Build ≠ "") (hpipeline : pipeline.Spec.Pipeline ≠ "")
    (hrun : IsTerminated pipeline.Spec.WorkflowStatus = false)
    (hbranch : d.BranchName pipeline = "master")
    (hname : pipeline.Spec.Workflow = "" ∨ pipeline.Spec.Workflow = "default")
    (habsent : o.workflowMap "default" = none)
    (hcreate : d.CreateDefaultWorkflow ns = (some flow, none)) :
    (onActivity d o pipeline ns).1.workflowMap = o.workflowMap ∧
      (onActivity d o pipeline ns).1.workflowMap "default" = none ∧
      (onActivity d o pipeline ns).1.pipelineMap pipeline.Name = some pipeline ∧
      (onActivity d o pipeline ns).2 =
        Effect.createDefaultWorkflow ns ::
          onActivitySteps d flow pipeline (createPromoteStatus pipeline)
            (d.RepositoryName pipeline) pipeline.Spec.Pipeline pipeline.Spec.Build
            pipeline.Spec.Version flow.Spec.Steps := by
  have hres : resolvedWorkflowName pipeline = "default" := by
    unfold resolvedWorkflowName
    rcases hname with h | h <;> simp [h]
  have hflow : onActivityFlow d o pipeline (some flow) =
      ({ o with pipelineMap := o.pipelineMap.set pipeline.Name pipeline },
        onActivitySteps d flow pipeline (createPromoteStatus pipeline)
          (d.RepositoryName pipeline) pipeline.Spec.Pipeline pipeline.Spec.Build
          pipeline.Spec.Version flow.Spec.Steps) := by
    simp [onActivityFlow, isReleaseBranch, hbranch]
  unfold resolvedWorkflowName at hres
  have heq : onActivity d o pipeline ns =
      ({ o with pipelineMap := o.pipelineMap.set pipeline.Name pipeline },
        Effect.createDefaultWorkflow ns ::
          onActivitySteps d flow pipeline (createPromoteStatus pipeline)
            (d.RepositoryName pipeline) pipeline.Spec.Pipeline pipeline.Spec.Build
            pipeline.Spec.Version flow.Spec.Steps) := by
    simp [onActivity, hrepo, hversion, hbuild, hpipeline, hrun, hres, habsent, hcreate, hflow]
  rw [heq]
  exact ⟨rfl, habsent, by simp [GoMap.set], rfl⟩

/-- Witness for C9 (amended): the sample activity with an empty workflow map
and a creation that succeeds. -/
theorem onActivity_default_workflow_not_cached_witness :
    (onActivity creatingDeps (sampleOptions GoMap.empty GoMap.empty)
        (sampleActivity ActivityStatusTypeRunning []) "jx").1.workflowMap "default" = none :=
  (onActivity_default_workflow_not_cached creatingDeps (sampleOptions GoMap.empty GoMap.empty)
    (sampleActivity ActivityStatusTypeRunning []) "jx" sampleWorkflow (by decide) (by decide) (by decide)
    (by decide) (by decide) (by decide) (Or.inl (by decide)) (by decide) (by decide)).2.1

/-- Counterexample to C9 as stated: the sample activity (complete identity,
running, on `master`, empty workflow name) meets a `workflowMap` without
`default`, the creation of the default workflow succeeds, and `workflowMap`
has no entry for `default` when `onActivity` returns. -/
theorem onActivity_leaves_default_workflow_absent :
    creatingDeps.CreateDefaultWorkflow "jx" = (some sampleWorkflow, none) ∧
      (sampleOptions GoMap.empty GoMap.empty).workflowMap "default" = none ∧
      (onActivity creatingDeps (sampleOptions GoMap.empty GoMap.empty)
          (sampleActivity ActivityStatusTypeRunning []) "jx").1.pipelineMap "acme-web-master-7" =
        some (sampleActivity ActivityStatusTypeRunning []) ∧
      (onActivity creatingDeps (sampleOptions GoMap.empty GoMap.empty)
          (sampleActivity ActivityStatusTypeRunning []) "jx").1.workflowMap "default" = none := by
  decide

/-! ### Pull request reconciler -/

/-- The loop body of `checkPullRequest` on a polled step: the pull request
query, then the merged or the open branch, then the rebase unless the branch
returned. -/
theorem checkPullRequestStep_polled (d : Deps) (o : ControllerWorkflowOptions)
    (activity : PipelineActivity) (environments : EnvironmentInterface) (ns : String)
    (step : PipelineActivityStep) (promote : PromoteActivityStep)
    (pullRequestStep : PromotePullRequestStep) (gitProvider : GitProvider)
    (gitInfo : GitRepositoryInfo) (prNumber : Int) (pr : GitPullRequest)
    (h : Polled d o step promote pullRequestStep gitProvider gitInfo prNumber pr)
    (r : List Effect × Bool)
    (hr : r = if pr.Merged = some true then
        checkMergedPullRequest d activity environments ns gitProvider pr
          (createPromoteOptionsFromActivity d activity promote.Environment) promote.Environment
      else checkOpenPullRequest d o gitProvider pr) :
    (checkPullRequestStep d o activity environments ns step).effects =
        Effect.getPullRequest gitInfo.Organisation gitInfo prNumber ::
          (if r.2 then r.1
           else r.1 ++ (rebaseIfNotMergeable d o activity environments
              (createPromoteOptionsFromActivity d activity promote.Environment)
              promote.Environment pr).2) ∧
      (checkPullRequestStep d o activity environments ns step).control =
        (if r.2 then Control.stop else Control.next) := by
  obtain ⟨h1, h2, h3, h4, h5, h6, h7, h8⟩ := h
  unfold checkPullRequestStep
  simp only [h1, h2, h3, h4, h5, h6, h7, h8, Bool.false_eq_true, if_false, or_self, ← hr]
  by_cases hret : r.2 = true <;> simp [hret]

/-- On the release branch `checkPullRequest` is its step loop. -/
theorem checkPullRequest_release_branch (d : Deps) (o : ControllerWorkflowOptions)
    (activity : PipelineActivity) (environments : EnvironmentInterface) (ns : String)
    (hbranch : d.BranchName activity = "master") :
    checkPullRequest d o activity environments ns =
      checkPullRequestLoop d activity environments ns o activity.Spec.Steps := by
  simp [checkPullRequest, isReleaseBranch, hbranch]

/-- The calls of the step loop are those of the loop body on the first step,
followed, when the body did not return, by those of the loop on the remaining
steps. -/
theorem checkPullRequestLoop_cons_effects (d : Deps) (o : ControllerWorkflowOptions)
    (activity : PipelineActivity) (environments : EnvironmentInterface) (ns : String)
    (step : PipelineActivityStep) (rest : List PipelineActivityStep) :
    (checkPullRequestLoop d activity environments ns o (step :: rest)).effects =
      (checkPullRequestStep d o activity environments ns step).effects ++
        (match (checkPullRequestStep d o activity environments ns step).control with
         | Control.next =>
           (checkPullRequestLoop d activity environments ns
             (checkPullRequestStep d o activity environments ns step).o rest).effects
         | Control.stop => []
         | Control.panic => []) := by
  rw [checkPullRequestLoop]
  cases (checkPullRequestStep d o activity environments ns step).control <;> simp

theorem rebaseIfNotMergeable_no_patch_no_merge (d : Deps) (o : ControllerWorkflowOptions)
    (activity : PipelineActivity) (environments : EnvironmentInterface) (po : PromoteOptions)
    (envName : String) (pr : GitPullRequest) :
    (rebaseIfNotMergeable d o activity environments po envName pr).2.filter Effect.isPatch = [] ∧
      (rebaseIfNotMergeable d o activity environments po envName pr).2.filter Effect.isMerge
        = [] := by
  unfold rebaseIfNotMergeable
  repeat' split
  all_goals simp [Effect.isPatch, Effect.isMerge]

/-- A failed status anywhere in the list makes the status loop return. -/
theorem collectStatuses_failed (d : Deps) (statuses : List GitRepoStatus)
    (hfailed : ∃ status ∈ statuses, d.IsFailed status = true)
    (urlStatusMap urlStatusTargetURLMap : StringMap) :
    collectStatuses d urlStatusMap urlStatusTargetURLMap statuses = none := by
  induction statuses generalizing urlStatusMap urlStatusTargetURLMap with
  | nil => simp at hfailed
  | cons status rest ih =>
    unfold collectStatuses
    by_cases hf : d.IsFailed status = true
    · simp [hf]
    · have hrest : ∃ status ∈ rest, d.IsFailed status = true := by
        obtain ⟨st, hmem, hst⟩ := hfailed
        rcases List.mem_cons.mp hmem with rfl | hmem
        · exact absurd hst hf
        · exact ⟨st, hmem, hst⟩
      simp only [hf, if_false, ih hrest]
      split_ifs <;> rfl

/-- C6: for a merged pull request (with merge commit SHA) of a polled promote
step, if the listed commit statuses contain a failed one at any position, the
only patches issued for the step are the pullRequest-complete patch and the
update-started patch (none at all when the environment lookup fails), no
comment-on-issues call and no update-complete patch is made, and the function
returns. -/
theorem checkPullRequest_failed_status_stops (d : Deps) (o : ControllerWorkflowOptions)
    (activity : PipelineActivity) (environments : EnvironmentInterface) (ns : String)
    (step : PipelineActivityStep) (promote : PromoteActivityStep)
    (pullRequestStep : PromotePullRequestStep) (gitProvider : GitProvider)
    (gitInfo : GitRepositoryInfo) (prNumber : Int) (pr : GitPullRequest)
    (mergeSha : String) (statuses : List GitRepoStatus)
    (h : Polled d o step promote pullRequestStep gitProvider gitInfo prNumber pr)
    (hmerged : pr.Merged = some true) (hsha : pr.MergeCommitSHA = some mergeSha)
    (hlist : gitProvider.ListCommitStatus pr.Owner pr.Repo mergeSha = Except.ok statuses)
    (hfailed : ∃ status ∈ statuses, d.IsFailed status = true) :
    (checkPullRequestStep d o activity environments ns step).effects.filter
        (fun e => !e.isQuery) =
      (match environments.Get promote.Environment with
       | Except.ok env =>
         [Effect.onPromotePullRequest
            (d.createPromoteKey (createPromoteOptionsFromActivity d activity promote.Environment)
              env) (PullRequestPatch.mergedPR mergeSha),
          Effect.onPromoteUpdate
            (d.createPromoteKey (createPromoteOptionsFromActivity d activity promote.Environment)
              env) UpdatePatch.StartPromotionUpdate]
       | Except.error _ => []) ∧
      (checkPullRequestStep d o activity environments ns step).control = Control.stop := by
  have hpos : statuses.length > 0 := by
    obtain ⟨st, hmem, _⟩ := hfailed
    exact List.length_pos_of_mem hmem
  obtain ⟨he, hc⟩ := checkPullRequestStep_polled d o activity environments ns step promote
    pullRequestStep gitProvider gitInfo prNumber pr h _ rfl
  rw [he, hc]
  simp only [hmerged, if_true, checkMergedPullRequest, hsha]
  cases henv : environments.Get promote.Environment with
  | error err => simp [Effect.isQuery]
  | ok env =>
    simp [hlist, checkCommitStatuses, hpos, collectStatuses_failed d statuses hfailed,
      Effect.isQuery]

/-- Witness for C6: scenario S3, a merged pull request whose statuses end with
a failed scan. -/
theorem checkPullRequest_failed_status_stops_witness :
    (checkPullRequestStep
        (providerDeps (sampleGitProvider (samplePullRequest (some true) (some "abc") none)
          redStatuses "success"))
        (sampleOptions GoMap.empty GoMap.empty) (sampleActivity ActivityStatusTypeRunning [stagingStep])
        sampleEnvironments "jx" stagingStep).control = Control.stop :=
  (checkPullRequest_failed_status_stops
    (providerDeps (sampleGitProvider (samplePullRequest (some true) (some "abc") none)
      redStatuses "success"))
    (sampleOptions GoMap.empty GoMap.empty) (sampleActivity ActivityStatusTypeRunning [stagingStep])
    sampleEnvironments "jx" stagingStep
    { Environment := "staging", Status := ActivityStatusTypeRunning,
      PullRequest := some { PullRequestURL := "https://git.example/acme/acme-web/pull/42",
                            MergeCommitSHA := "" } }
    { PullRequestURL := "https://git.example/acme/acme-web/pull/42", MergeCommitSHA := "" }
    (sampleGitProvider (samplePullRequest (some true) (some "abc") none) redStatuses "success")
    sampleGitInfo 42 (samplePullRequest (some true) (some "abc") none) "abc" redStatuses
    ⟨rfl, by decide, rfl, by decide, by decide, rfl, rfl, rfl⟩ rfl rfl rfl
    ⟨{ URL := "scan", TargetURL := "x", State := "failure", Description := "scan failed" },
      by decide, by decide⟩).2

theorem allSucceeded_set (m : StringMap) (k : String) (h : allSucceeded m = true) :
    allSucceeded (m.set k gitStatusSuccess) = true := by
  induction m with
  | nil => simp [StringMap.set, allSucceeded]
  | cons kv rest ih =>
    obtain ⟨k', v⟩ := kv
    simp only [allSucceeded, List.all_cons, Bool.and_eq_true] at h ih ⊢
    unfold StringMap.set
    by_cases hk : k' = k
    · simp [hk, h.2]
    · simp [hk, h.1, ih h.2]

/-- Statuses that are all `success` and not failed leave a status map in which
every entry is `success`. -/
theorem collectStatuses_green (d : Deps) (statuses : List GitRepoStatus)
    (hgreen : ∀ status ∈ statuses, status.State = gitStatusSuccess ∧ d.IsFailed status = false)
    (urlStatusMap urlStatusTargetURLMap : StringMap) (hm : allSucceeded urlStatusMap = true) :
    ∃ m t, collectStatuses d urlStatusMap urlStatusTargetURLMap statuses = some (m, t) ∧
      allSucceeded m = true := by
  induction statuses generalizing urlStatusMap urlStatusTargetURLMap with
  | nil => exact ⟨urlStatusMap, urlStatusTargetURLMap, rfl, hm⟩
  | cons status rest ih =>
    have hs := hgreen status (List.mem_cons_self _ _)
    have hrest : ∀ st ∈ rest, st.State = gitStatusSuccess ∧ d.IsFailed st = false :=
      fun st hmem => hgreen st (List.mem_cons_of_mem _ hmem)
    unfold collectStatuses
    simp only [hs.2, Bool.false_eq_true, if_false]
    split_ifs
    · rw [hs.1]
      exact ih hrest _ _ (allSucceeded_set _ _ hm)
    · exact ih hrest _ _ hm
    · exact ih hrest _ _ hm

/-- C4: for a polled promote step whose pull request is reported merged with
merge commit SHA `mergeSha`, when the environment lookup succeeds, the commit
statuses are a non-empty list of `success` states, the activity's Git URL
parses and comment-on-issues succeeds, the calls of `checkPullRequest` for the
step are, in order: the pull request query, the environment lookup, the
pullRequest patch completing the sub-step with `MergeCommitSHA = mergeSha`,
the update-started patch, the commit status listing, the update patch setting
the statuses, the comment-on-issues call and the update-complete patch; so the
calls other than reads are exactly the five of the claim, and the function
returns. -/
theorem checkPullRequest_merged_green_effects (d : Deps) (o : ControllerWorkflowOptions)
    (activity : PipelineActivity) (environments : EnvironmentInterface) (ns : String)
    (step : PipelineActivityStep) (promote : PromoteActivityStep)
    (pullRequestStep : PromotePullRequestStep) (gitProvider : GitProvider)
    (gitInfo : GitRepositoryInfo) (prNumber : Int) (pr : GitPullRequest)
    (mergeSha : String) (env : Environment) (statuses : List GitRepoStatus)
    (activityGitInfo : Option GitRepositoryInfo)
    (h : Polled d o step promote pullRequestStep gitProvider gitInfo prNumber pr)
    (hmerged : pr.Merged = some true) (hsha : pr.MergeCommitSHA = some mergeSha)
    (henv : environments.Get promote.Environment = Except.ok env)
    (hlist : gitProvider.ListCommitStatus pr.Owner pr.Repo mergeSha = Except.ok statuses)
    (hnonempty : statuses ≠ [])
    (hgreen : ∀ status ∈ statuses, status.State = "success")
    (hsuccess : ∀ status : GitRepoStatus, status.State = "success" → d.IsFailed status = false)
    (hurl : activity.Spec.GitURL ≠ "")
    (hparse : d.ParseGitURL activity.Spec.GitURL = (activityGitInfo, none))
    (hcomment : d.commentOnIssues
      { createPromoteOptionsFromActivity d activity promote.Environment with
        GitInfo := activityGitInfo } ns env
      (d.createPromoteKey (createPromoteOptionsFromActivity d activity promote.Environment) env)
      = none) :
    ∃ prStatuses : List GitStatus,
      (checkPullRequestStep d o activity environments ns step).effects =
        [Effect.getPullRequest gitInfo.Organisation gitInfo prNumber,
         Effect.environmentsGet promote.Environment,
         Effect.onPromotePullRequest
           (d.createPromoteKey (createPromoteOptionsFromActivity d activity promote.Environment)
             env) (PullRequestPatch.mergedPR mergeSha),
         Effect.onPromoteUpdate
           (d.createPromoteKey (createPromoteOptionsFromActivity d activity promote.Environment)
             env) UpdatePatch.StartPromotionUpdate,
         Effect.listCommitStatus pr.Owner pr.Repo mergeSha,
         Effect.onPromoteUpdate
           (d.createPromoteKey (createPromoteOptionsFromActivity d activity promote.Environment)
             env) (UpdatePatch.updateStatuses prStatuses),
         Effect.commentOnIssues
           { createPromoteOptionsFromActivity d activity promote.Environment with
             GitInfo := activityGitInfo } ns env
           (d.createPromoteKey (createPromoteOptionsFromActivity d activity promote.Environment)
             env),
         Effect.onPromoteUpdate
           (d.createPromoteKey (createPromoteOptionsFromActivity d activity promote.Environment)
             env) UpdatePatch.CompletePromotionUpdate] ∧
      (checkPullRequestStep d o activity environments ns step).effects.filter
          (fun e => !e.isQuery) =
        [Effect.onPromotePullRequest
           (d.createPromoteKey (createPromoteOptionsFromActivity d activity promote.Environment)
             env) (PullRequestPatch.mergedPR mergeSha),
         Effect.onPromoteUpdate
           (d.createPromoteKey (createPromoteOptionsFromActivity d activity promote.Environment)
             env) UpdatePatch.StartPromotionUpdate,
         Effect.onPromoteUpdate
           (d.createPromoteKey (createPromoteOptionsFromActivity d activity promote.Environment)
             env) (UpdatePatch.updateStatuses prStatuses),
         Effect.commentOnIssues
           { createPromoteOptionsFromActivity d activity promote.Environment with
             GitInfo := activityGitInfo } ns env
           (d.createPromoteKey (createPromoteOptionsFromActivity d activity promote.Environment)
             env),
         Effect.onPromoteUpdate
           (d.createPromoteKey (createPromoteOptionsFromActivity d activity promote.Environment)
             env) UpdatePatch.CompletePromotionUpdate] ∧
      (checkPullRequestStep d o activity environments ns step).control = Control.stop := by
  have hpos : statuses.length > 0 := List.length_pos.mpr hnonempty
  obtain ⟨m, t, hcollect, hall⟩ := collectStatuses_green d statuses
    (fun st hmem => ⟨hgreen st hmem, hsuccess st (hgreen st hmem)⟩) [] [] rfl
  obtain ⟨he, hc⟩ := checkPullRequestStep_polled d o activity environments ns step promote
    pullRequestStep gitProvider gitInfo prNumber pr h _ rfl
  refine ⟨buildPrStatuses m t, ?_, ?_, ?_⟩
  · rw [he]
    simp [hmerged, checkMergedPullRequest, hsha, henv, hlist, checkCommitStatuses, hpos,
      hcollect, hall, hurl, hparse, hcomment]
  · rw [he]
    simp [hmerged, checkMergedPullRequest, hsha, henv, hlist, checkCommitStatuses, hpos,
      hcollect, hall, hurl, hparse, hcomment, Effect.isQuery]
  · rw [hc]
    simp [hmerged, checkMergedPullRequest, hsha, henv, hlist, checkCommitStatuses, hpos,
      hcollect, hall, hurl, hparse, hcomment]

/-- Witness for C4: scenario S2, pull request 42 merged at `abc` with two
green statuses. -/
theorem checkPullRequest_merged_green_effects_witness :
    (checkPullRequestStep
        (providerDeps (sampleGitProvider (samplePullRequest (some true) (some "abc") none)
          greenStatuses "success"))
        (sampleOptions GoMap.empty GoMap.empty) (sampleActivity ActivityStatusTypeRunning [stagingStep])
        sampleEnvironments "jx" stagingStep).control = Control.stop :=
  (checkPullRequest_merged_green_effects
    (providerDeps (sampleGitProvider (samplePullRequest (some true) (some "abc") none)
      greenStatuses "success"))
    (sampleOptions GoMap.empty GoMap.empty) (sampleActivity ActivityStatusTypeRunning [stagingStep])
    sampleEnvironments "jx" stagingStep
    { Environment := "staging", Status := ActivityStatusTypeRunning,
      PullRequest := some { PullRequestURL := "https://git.example/acme/acme-web/pull/42",
                            MergeCommitSHA := "" } }
    { PullRequestURL := "https://git.example/acme/acme-web/pull/42", MergeCommitSHA := "" }
    (sampleGitProvider (samplePullRequest (some true) (some "abc") none) greenStatuses "success")
    sampleGitInfo 42 (samplePullRequest (some true) (some "abc") none) "abc" stagingEnvironment
    greenStatuses
    (some { URL := "https://git.example/acme/acme-web.git", Organisation := "acme",
            Name := "acme-web" })
    ⟨rfl, by decide, rfl, by decide, by decide, rfl, rfl, rfl⟩ rfl rfl rfl rfl (by decide)
    (by decide)
    (by
      intro status hstate
      simp [providerDeps, sampleDeps, hstate])
    (by decide) rfl rfl).elim (fun _ hx => hx.2.2)

/-- C7: for a polled promote step whose pull request is open (not reported
merged, not closed) and whose last-commit status query answers `status`,
`checkPullRequest` asks the Git host to merge exactly when `status` is
`success` and `NoMergePullRequest` is false; it then asks once, with the fixed
message, whatever the merge returns, and in neither case patches the
activity. -/
theorem checkPullRequest_open_merges_iff_success (d : Deps) (o : ControllerWorkflowOptions)
    (activity : PipelineActivity) (environments : EnvironmentInterface) (ns : String)
    (step : PipelineActivityStep) (promote : PromoteActivityStep)
    (pullRequestStep : PromotePullRequestStep) (gitProvider : GitProvider)
    (gitInfo : GitRepositoryInfo) (prNumber : Int) (pr : GitPullRequest) (status : String)
    (h : Polled d o step promote pullRequestStep gitProvider gitInfo prNumber pr)
    (hopen : pr.Merged ≠ some true) (hnotClosed : d.IsClosed pr = false)
    (hstatus : gitProvider.PullRequestLastCommitStatus pr = Except.ok status) :
    (checkPullRequestStep d o activity environments ns step).effects.filter Effect.isMerge =
        (if status = "success" ∧ o.NoMergePullRequest = false then
          [Effect.mergePullRequest pr "jx promote automatically merged promotion PR"
            (gitProvider.MergePullRequest pr "jx promote automatically merged promotion PR")]
         else []) ∧
      (checkPullRequestStep d o activity environments ns step).effects.filter Effect.isPatch
        = [] := by
  obtain ⟨he, _⟩ := checkPullRequestStep_polled d o activity environments ns step promote
    pullRequestStep gitProvider gitInfo prNumber pr h _ rfl
  obtain ⟨hpatch, hmerge⟩ := rebaseIfNotMergeable_no_patch_no_merge d o activity environments
    (createPromoteOptionsFromActivity d activity promote.Environment) promote.Environment pr
  rw [he]
  simp only [hopen, if_false, checkOpenPullRequest, hnotClosed, Bool.false_eq_true, hstatus]
  by_cases h1 : status = "in-progress"
  · subst h1
    simp [Effect.isMerge, Effect.isPatch, hpatch, hmerge]
  · by_cases h2 : status = "success"
    · subst h2
      cases hno : o.NoMergePullRequest <;>
        simp [Effect.isMerge, Effect.isPatch, hpatch, hmerge, mergeMessage]
    · by_cases h3 : status = "error" ∨ status = "failure"
      · simp [h1, h2, h3, Effect.isMerge, Effect.isPatch]
      · simp [h1, h2, h3, Effect.isMerge, Effect.isPatch, hpatch, hmerge]

/-- Witness for C7: pull request 42 open with a green last commit and
auto-merge enabled; one merge request is made although the merge fails. -/
theorem checkPullRequest_open_merges_iff_success_witness :
    (checkPullRequestStep
        (providerDeps (sampleGitProvider (samplePullRequest (some false) none none)
          [] "success"))
        (sampleOptions GoMap.empty GoMap.empty) (sampleActivity ActivityStatusTypeRunning [stagingStep])
        sampleEnvironments "jx" stagingStep).effects.filter Effect.isMerge =
      [Effect.mergePullRequest (samplePullRequest (some false) none none)
        "jx promote automatically merged promotion PR" (some "no karma")] :=
  (checkPullRequest_open_merges_iff_success
    (providerDeps (sampleGitProvider (samplePullRequest (some false) none none) [] "success"))
    (sampleOptions GoMap.empty GoMap.empty) (sampleActivity ActivityStatusTypeRunning [stagingStep])
    sampleEnvironments "jx" stagingStep
    { Environment := "staging", Status := ActivityStatusTypeRunning,
      PullRequest := some { PullRequestURL := "https://git.example/acme/acme-web/pull/42",
                            MergeCommitSHA := "" } }
    { PullRequestURL := "https://git.example/acme/acme-web/pull/42", MergeCommitSHA := "" }
    (sampleGitProvider (samplePullRequest (some false) none none) [] "success")
    sampleGitInfo 42 (samplePullRequest (some false) none none) "success"
    ⟨rfl, by decide, rfl, by decide, by decide, rfl, rfl, rfl⟩ (by decide) rfl rfl).1

/-- C8: for an activity with non-empty repository name `app`, `createReleaseInfo`
returns the release name `env.Spec.Namespace-app`, the full application name
`LocalHelmRepoName/app` (just `app` without a local repository name) and the
activity's version; and for a polled step whose pull request is open with the
mergeable flag present and false, the last-commit status not error or failure
and the environment lookup succeeding, the only promoter call of
`checkPullRequest` re-pushes the promotion with exactly that descriptor. -/
theorem createReleaseInfo_descriptor_and_rebase (d : Deps) (o : ControllerWorkflowOptions)
    (activity : PipelineActivity) (env : Environment)
    (happ : d.RepositoryName activity ≠ "") :
    (createReleaseInfo d o activity env).1 =
        some { ReleaseName := env.Spec.Namespace ++ "-" ++ d.RepositoryName activity
               FullAppName :=
                 if o.LocalHelmRepoName ≠ "" then
                   o.LocalHelmRepoName ++ "/" ++ d.RepositoryName activity
                 else d.RepositoryName activity
               Version := activity.Spec.Version } ∧
      ∀ (environments : EnvironmentInterface) (ns : String) (step : PipelineActivityStep)
        (promote : PromoteActivityStep) (pullRequestStep : PromotePullRequestStep)
        (gitProvider : GitProvider) (gitInfo : GitRepositoryInfo) (prNumber : Int)
        (pr : GitPullRequest),
        Polled d o step promote pullRequestStep gitProvider gitInfo prNumber pr →
        pr.Merged ≠ some true → d.IsClosed pr = false → pr.Mergeable = some false →
        gitProvider.PullRequestLastCommitStatus pr ≠ Except.ok "error" →
        gitProvider.PullRequestLastCommitStatus pr ≠ Except.ok "failure" →
        environments.Get promote.Environment = Except.ok env →
        (checkPullRequestStep d o activity environments ns step).effects.filter
            Effect.isPromoterCall =
          [Effect.promoteViaPullRequest
            (createPromoteOptionsFromActivity d activity promote.Environment) env
            { ReleaseName := env.Spec.Namespace ++ "-" ++ d.RepositoryName activity
              FullAppName :=
                if o.LocalHelmRepoName ≠ "" then
                  o.LocalHelmRepoName ++ "/" ++ d.RepositoryName activity
                else d.RepositoryName activity
              Version := activity.Spec.Version }] := by
  have hinfo : (createReleaseInfo d o activity env).1 =
      some { ReleaseName := env.Spec.Namespace ++ "-" ++ d.RepositoryName activity
             FullAppName :=
               if o.LocalHelmRepoName ≠ "" then
                 o.LocalHelmRepoName ++ "/" ++ d.RepositoryName activity
               else d.RepositoryName activity
             Version := activity.Spec.Version } := by
    simp [createReleaseInfo, happ]
  refine ⟨hinfo, ?_⟩
  intro environments ns step promote pullRequestStep gitProvider gitInfo prNumber pr h hopen
    hnotClosed hmergeable herror hfailure henv
  obtain ⟨he, _⟩ := checkPullRequestStep_polled d o activity environments ns step promote
    pullRequestStep gitProvider gitInfo prNumber pr h _ rfl
  have htail : (rebaseIfNotMergeable d o activity environments
      (createPromoteOptionsFromActivity d activity promote.Environment) promote.Environment
      pr).2 =
      [Effect.environmentsGet promote.Environment,
       Effect.promoteViaPullRequest
        (createPromoteOptionsFromActivity d activity promote.Environment) env
        { ReleaseName := env.Spec.Namespace ++ "-" ++ d.RepositoryName activity
          FullAppName :=
            if o.LocalHelmRepoName ≠ "" then
              o.LocalHelmRepoName ++ "/" ++ d.RepositoryName activity
            else d.RepositoryName activity
          Version := activity.Spec.Version }] := by
    simp [rebaseIfNotMergeable, hmergeable, henv, createReleaseInfo, happ]
  rw [he, htail]
  simp only [hopen, if_false, checkOpenPullRequest, hnotClosed, Bool.false_eq_true]
  cases hst : gitProvider.PullRequestLastCommitStatus pr with
  | error err => simp [Effect.isPromoterCall]
  | ok status =>
    have h1 : status ≠ "error" := fun hx => herror (by rw [hst, hx])
    have h2 : status ≠ "failure" := fun hx => hfailure (by rw [hst, hx])
    by_cases h3 : status = "in-progress"
    · simp [h3, Effect.isPromoterCall]
    · by_cases h4 : status = "success"
      · cases hno : o.NoMergePullRequest <;> simp [h4, Effect.isPromoterCall]
      · simp [h1, h2, h3, h4, Effect.isPromoterCall]

/-- Witness for C8: scenario S4, an open pull request with `mergeable=false`;
the descriptor is `staging-ns-acme-web`, `jx/acme-web`, `1.2.3`, and the
promoter is asked once to re-push with it. -/
theorem createReleaseInfo_descriptor_and_rebase_witness :
    (createReleaseInfo
        (providerDeps (sampleGitProvider (samplePullRequest (some false) none (some false))
          [] "pending"))
        (sampleOptions GoMap.empty GoMap.empty)
        (sampleActivity ActivityStatusTypeRunning [stagingStep]) stagingEnvironment).1 =
      some { ReleaseName := "staging-ns-acme-web", FullAppName := "jx/acme-web",
             Version := "1.2.3" } ∧
    (checkPullRequestStep
        (providerDeps (sampleGitProvider (samplePullRequest (some false) none (some false))
          [] "pending"))
        (sampleOptions GoMap.empty GoMap.empty) (sampleActivity ActivityStatusTypeRunning [stagingStep])
        sampleEnvironments "jx" stagingStep).effects.filter Effect.isPromoterCall =
      [Effect.promoteViaPullRequest stagingPromoteOptions stagingEnvironment
        { ReleaseName := "staging-ns-acme-web", FullAppName := "jx/acme-web",
          Version := "1.2.3" }] :=
  have t := createReleaseInfo_descriptor_and_rebase
    (providerDeps (sampleGitProvider (samplePullRequest (some false) none (some false))
      [] "pending"))
    (sampleOptions GoMap.empty GoMap.empty)
    (sampleActivity ActivityStatusTypeRunning [stagingStep]) stagingEnvironment (by decide)
  ⟨t.1.trans (by decide),
    (t.2 sampleEnvironments "jx" stagingStep
      { Environment := "staging", Status := ActivityStatusTypeRunning,
        PullRequest := some { PullRequestURL := "https://git.example/acme/acme-web/pull/42",
                              MergeCommitSHA := "" } }
      { PullRequestURL := "https://git.example/acme/acme-web/pull/42", MergeCommitSHA := "" }
      (sampleGitProvider (samplePullRequest (some false) none (some false)) [] "pending")
      sampleGitInfo 42 (samplePullRequest (some false) none (some false))
      ⟨rfl, by decide, rfl, by decide, by decide, rfl, rfl, rfl⟩ (by decide) rfl rfl
      (fun hx => absurd (Except.ok.inj hx) (by decide))
      (fun hx => absurd (Except.ok.inj hx) (by decide)) rfl).trans (by decide)⟩

/-! ### Status maps -/

theorem StringMap.get_set_eq (m : StringMap) (k v : String) : (m.set k v).get k = v := by
  induction m with
  | nil => simp [StringMap.set, StringMap.get]
  | cons kv rest ih =>
    obtain ⟨k', v'⟩ := kv
    unfold StringMap.set
    by_cases hk : k' = k
    · simp [hk, StringMap.get]
    · simp [hk, StringMap.get, ih]

theorem StringMap.get_set_ne (m : StringMap) (k v k2 : String) (h : k2 ≠ k) :
    (m.set k v).get k2 = m.get k2 := by
  induction m with
  | nil => simp [StringMap.set, StringMap.get, Ne.symm h]
  | cons kv rest ih =>
    obtain ⟨k', v'⟩ := kv
    unfold StringMap.set
    by_cases hk : k' = k
    · subst hk
      simp [StringMap.get, Ne.symm h]
    · simp only [hk, if_false, StringMap.get, ih]

theorem StringMap.mem_keys_set (m : StringMap) (k v k2 : String) :
    k2 ∈ (m.set k v).map Prod.fst ↔ k2 = k ∨ k2 ∈ m.map Prod.fst := by
  induction m with
  | nil => simp [StringMap.set]
  | cons kv rest ih =>
    obtain ⟨k', v'⟩ := kv
    unfold StringMap.set
    by_cases hk : k' = k
    · subst hk
      simp
    · simp only [hk, if_false, List.map_cons, List.mem_cons, ih]
      tauto

theorem StringMap.nodup_keys_set (m : StringMap) (k v : String)
    (h : (m.map Prod.fst).Nodup) : ((m.set k v).map Prod.fst).Nodup := by
  induction m with
  | nil => simp [StringMap.set]
  | cons kv rest ih =>
    obtain ⟨k', v'⟩ := kv
    unfold StringMap.set
    simp only [List.map_cons, List.nodup_cons] at h
    by_cases hk : k' = k
    · subst hk
      simpa using h
    · simp only [hk, if_false, List.map_cons, List.nodup_cons, StringMap.mem_keys_set]
      exact ⟨by simp [h.1], ih h.2⟩

theorem StringMap.mem_keys_of_get_ne (m : StringMap) (k : String) (h : m.get k ≠ "") :
    k ∈ m.map Prod.fst := by
  induction m with
  | nil => simp [StringMap.get] at h
  | cons kv rest ih =>
    obtain ⟨k', v'⟩ := kv
    unfold StringMap.get at h
    by_cases hk : k' = k
    · simp [hk]
    · simp only [hk, if_false] at h
      simp [ih h]

/-! ### Resolved state and target of one URL -/

theorem resolvedState_eq_success_iff (listed : List GitRepoStatus) :
    resolvedState listed = gitStatusSuccess ↔
      listed.any (fun status => status.State == gitStatusSuccess) = true := by
  unfold resolvedState
  by_cases hany : listed.any (fun status => status.State == gitStatusSuccess) = true
  · simp [hany]
  · simp only [hany, if_false, iff_false, Bool.false_eq_true]
    cases hl : listed.getLast? with
    | none => simp [gitStatusSuccess]
    | some last =>
      simp only
      intro hs
      apply hany
      rw [List.any_eq_true]
      exact ⟨last, List.mem_of_getLast?_eq_some hl, by simp [hs]⟩

theorem resolvedState_append (listed : List GitRepoStatus) (status : GitRepoStatus) :
    resolvedState (listed ++ [status]) =
      if resolvedState listed = gitStatusSuccess then gitStatusSuccess else status.State := by
  by_cases hs : resolvedState listed = gitStatusSuccess
  · have hany := (resolvedState_eq_success_iff listed).mp hs
    simp [hs, resolvedState, hany]
  · have hany : ¬ listed.any (fun status => status.State == gitStatusSuccess) = true :=
      fun hx => hs ((resolvedState_eq_success_iff listed).mpr hx)
    simp only [hs, if_false]
    unfold resolvedState
    by_cases hst : status.State = gitStatusSuccess
    · simp [hst]
    · simp [hany, hst]

theorem resolvedState_of_no_success (listed : List GitRepoStatus)
    (hs : resolvedState listed ≠ gitStatusSuccess) :
    resolvedState listed =
      match listed.reverse with
      | [] => ""
      | last :: _ => last.State := by
  have hany : ¬ listed.any (fun status => status.State == gitStatusSuccess) = true :=
    fun hx => hs ((resolvedState_eq_success_iff listed).mpr hx)
  unfold resolvedState
  simp only [hany, if_false, Bool.false_eq_true]
  rw [List.getLast?_eq_head?_reverse]
  cases listed.reverse <;> rfl

theorem storedAt_append (listed : List GitRepoStatus) (status : GitRepoStatus) :
    storedAt (listed ++ [status]) =
      if resolvedState listed = gitStatusSuccess then storedAt listed
      else if listed ≠ [] ∧ resolvedState listed = status.State then storedAt listed
      else some status := by
  by_cases hs : resolvedState listed = gitStatusSuccess
  · have hany := (resolvedState_eq_success_iff listed).mp hs
    rw [List.any_eq_true] at hany
    obtain ⟨x, hx, hxs⟩ := hany
    simp only [hs, if_true]
    unfold storedAt
    rw [List.find?_append]
    cases hf : listed.find? (fun status => status.State == gitStatusSuccess) with
    | none =>
      rw [List.find?_eq_none] at hf
      exact absurd hxs (hf x hx)
    | some y => simp
  · have hany : ¬ listed.any (fun status => status.State == gitStatusSuccess) = true :=
      fun hx => hs ((resolvedState_eq_success_iff listed).mpr hx)
    have hfind : listed.find? (fun status => status.State == gitStatusSuccess) = none := by
      rw [List.find?_eq_none]
      intro x hx hxs
      exact hany (List.any_eq_true.mpr ⟨x, hx, hxs⟩)
    have hlast := resolvedState_of_no_success listed hs
    simp only [hs, if_false]
    unfold storedAt
    rw [List.find?_append, hfind, List.reverse_append]
    simp only [List.reverse_cons, List.reverse_nil, List.nil_append, List.singleton_append,
      Option.none_or]
    by_cases hst : status.State = gitStatusSuccess
    · have hne : ¬ (listed ≠ [] ∧ resolvedState listed = status.State) := by
        rintro ⟨_, h2⟩
        exact hs (h2.trans hst)
      rw [if_neg hne]
      simp [hst]
    · have hf2 : List.find? (fun status => status.State == gitStatusSuccess) [status] = none := by
        simp [hst]
      rw [hf2]
      cases hrev : listed.reverse with
      | nil =>
        have hnil : listed = [] := by simpa using hrev
        simp [hnil]
      | cons last before =>
        have hne : listed ≠ [] := by
          intro hx; rw [hx] at hrev; simp at hrev
        rw [hrev] at hlast
        simp only at hlast
        by_cases heq : last.State = status.State
        · have hc : listed ≠ [] ∧ resolvedState listed = status.State := ⟨hne, hlast.trans heq⟩
          rw [if_pos hc]
          simp [heq, List.takeWhile, List.getLast?_cons_cons]
        · have hc : ¬ (listed ≠ [] ∧ resolvedState listed = status.State) := by
            rintro ⟨_, h2⟩
            exact heq (hlast.symm.trans h2)
          rw [if_neg hc]
          have hb : (last.State == status.State) = false := beq_false_of_ne heq
          simp [List.takeWhile, hb]

/-! ### The status loop -/

theorem statusesFor_append_same (seen : List GitRepoStatus) (status : GitRepoStatus) :
    statusesFor (seen ++ [status]) status.URL = statusesFor seen status.URL ++ [status] := by
  simp [statusesFor, List.filter_append]

theorem statusesFor_append_other (seen : List GitRepoStatus) (status : GitRepoStatus)
    (url : String) (h : status.URL ≠ url) :
    statusesFor (seen ++ [status]) url = statusesFor seen url := by
  simp [statusesFor, List.filter_append, h]

theorem statusesFor_ne_nil (seen : List GitRepoStatus) (url : String)
    (h : ∃ status ∈ seen, status.URL = url ∧ status.State ≠ "") :
    statusesFor seen url ≠ [] := by
  obtain ⟨st, hmem, hurl, _⟩ := h
  intro hnil
  have : st ∈ statusesFor seen url := by
    simp [statusesFor, hmem, hurl]
  rw [hnil] at this
  simp at this

/-- A status whose state is already held, or that meets a `success`, leaves the
maps alone and the invariant holds for the longer prefix. -/
theorem StatusInvariant.keep (seen : List GitRepoStatus) (m t : StringMap)
    (status : GitRepoStatus) (h : StatusInvariant seen m t)
    (hcur : m.get status.URL = gitStatusSuccess ∨ m.get status.URL = status.State) :
    StatusInvariant (seen ++ [status]) m t := by
  have hstate := h.state status.URL
  refine ⟨h.nodup, ?_, ?_, ?_⟩
  · intro url
    constructor
    · intro hmem
      obtain ⟨st, hst, hx⟩ := (h.keys url).mp hmem
      exact ⟨st, List.mem_append_left _ hst, hx⟩
    · rintro ⟨st, hst, hurl, hne⟩
      rcases List.mem_append.mp hst with hst | hst
      · exact (h.keys url).mpr ⟨st, hst, hurl, hne⟩
      · have hst : st = status := by simpa using hst
        subst hst
        subst hurl
        apply StringMap.mem_keys_of_get_ne
        rcases hcur with hc | hc
        · rw [hc]; decide
        · rw [hc]; exact hne
  · intro url
    by_cases hurl : status.URL = url
    · subst hurl
      rw [statusesFor_append_same, resolvedState_append, ← hstate]
      by_cases hs : m.get status.URL = gitStatusSuccess
      · rw [if_pos hs]; exact hs
      · rw [if_neg hs]; exact hcur.resolve_left hs
    · rw [statusesFor_append_other _ _ _ hurl]
      exact h.state url
  · intro url hmem
    by_cases hurl : status.URL = url
    · subst hurl
      have hne := statusesFor_ne_nil seen status.URL ((h.keys _).mp hmem)
      rw [h.target _ hmem]
      unfold resolvedTargetURL
      rw [statusesFor_append_same, storedAt_append, ← hstate]
      by_cases hs : m.get status.URL = gitStatusSuccess
      · simp [hs]
      · have hc : m.get status.URL = status.State := hcur.resolve_left hs
        simp [hs, hc, hne]
    · rw [statusesFor_append_other _ _ _ hurl]
      exact h.target url hmem

/-- A status that differs from the held state, which is not `success`, is
stored in both maps and the invariant holds for the longer prefix. -/
theorem StatusInvariant.store (seen : List GitRepoStatus) (m t : StringMap)
    (status : GitRepoStatus) (h : StatusInvariant seen m t)
    (h1 : m.get status.URL ≠ gitStatusSuccess) (h2 : m.get status.URL ≠ status.State) :
    StatusInvariant (seen ++ [status]) (m.set status.URL status.State)
      (t.set status.URL status.TargetURL) := by
  have hstate := h.state status.URL
  refine ⟨StringMap.nodup_keys_set _ _ _ h.nodup, ?_, ?_, ?_⟩
  · intro url
    rw [StringMap.mem_keys_set]
    constructor
    · rintro (hurl | hmem)
      · subst hurl
        by_cases he : status.State = ""
        · have hk : status.URL ∈ m.map Prod.fst := by
            apply StringMap.mem_keys_of_get_ne
            rw [he] at h2
            exact h2
          obtain ⟨st, hst, hx⟩ := (h.keys _).mp hk
          exact ⟨st, List.mem_append_left _ hst, hx⟩
        · exact ⟨status, by simp, rfl, he⟩
      · obtain ⟨st, hst, hx⟩ := (h.keys url).mp hmem
        exact ⟨st, List.mem_append_left _ hst, hx⟩
    · rintro ⟨st, hst, hurl, hne⟩
      rcases List.mem_append.mp hst with hst | hst
      · exact Or.inr ((h.keys url).mpr ⟨st, hst, hurl, hne⟩)
      · have hst : st = status := by simpa using hst
        subst hst
        exact Or.inl hurl.symm
  · intro url
    by_cases hurl : status.URL = url
    · subst hurl
      rw [StringMap.get_set_eq, statusesFor_append_same, resolvedState_append, ← hstate]
      simp [h1]
    · rw [StringMap.get_set_ne _ _ _ _ (Ne.symm hurl), statusesFor_append_other _ _ _ hurl]
      exact h.state url
  · intro url hmem
    by_cases hurl : status.URL = url
    · subst hurl
      rw [StringMap.get_set_eq]
      unfold resolvedTargetURL
      rw [statusesFor_append_same, storedAt_append, ← hstate]
      simp [h1, h2]
    · rw [StringMap.get_set_ne _ _ _ _ (Ne.symm hurl), statusesFor_append_other _ _ _ hurl]
      rw [StringMap.mem_keys_set] at hmem
      exact h.target url (hmem.resolve_left (Ne.symm hurl))

/-- Without a failed status the status loop runs to its end, and the maps it
leaves satisfy the invariant for all the statuses. -/
theorem collectStatuses_invariant (d : Deps) (rest : List GitRepoStatus)
    (hrest : ∀ status ∈ rest, d.IsFailed status = false)
    (seen : List GitRepoStatus) (m t : StringMap) (h : StatusInvariant seen m t) :
    ∃ m2 t2, collectStatuses d m t rest = some (m2, t2) ∧
      StatusInvariant (seen ++ rest) m2 t2 := by
  induction rest generalizing seen m t with
  | nil => exact ⟨m, t, rfl, by simpa using h⟩
  | cons status rest ih =>
    have hs := hrest status (List.mem_cons_self _ _)
    have hrest2 : ∀ st ∈ rest, d.IsFailed st = false :=
      fun st hmem => hrest st (List.mem_cons_of_mem _ hmem)
    have happ : seen ++ status :: rest = (seen ++ [status]) ++ rest := by simp
    rw [happ]
    unfold collectStatuses
    simp only [hs, Bool.false_eq_true, if_false]
    by_cases h1 : m.get status.URL = gitStatusSuccess
    · have hc : ¬ (m.get status.URL = "" ∨ m.get status.URL ≠ gitStatusSuccess) := by
        rw [h1]; decide
      rw [if_neg hc]
      exact ih hrest2 _ _ _ (h.keep seen m t status (Or.inl h1))
    · have hc : m.get status.URL = "" ∨ m.get status.URL ≠ gitStatusSuccess := Or.inr h1
      rw [if_pos hc]
      by_cases h2 : m.get status.URL = status.State
      · rw [if_neg (not_not.mpr h2)]
        exact ih hrest2 _ _ _ (h.keep seen m t status (Or.inr h2))
      · rw [if_pos h2]
        exact ih hrest2 _ _ _ (h.store seen m t status h1 h2)

theorem StatusInvariant.empty : StatusInvariant [] [] [] :=
  ⟨by simp, by simp, by intro url; simp [StringMap.get, statusesFor, resolvedState],
    by simp⟩

/-- The sorted keys of a status map with distinct keys: strictly ascending,
with the same members. -/
theorem SortedMapKeys_sorted (m : StringMap) (h : (m.map Prod.fst).Nodup) :
    (SortedMapKeys m).Sorted (· < ·) ∧ ∀ url, url ∈ SortedMapKeys m ↔ url ∈ m.map Prod.fst := by
  have hrel : (fun a b : String => a.data ≤ b.data) = (fun a b : String => a ≤ b) := by
    funext a b
    exact propext String.le_iff_toList_le.symm
  have hperm : (SortedMapKeys m).Perm (m.map Prod.fst) := List.perm_insertionSort _ _
  have htotal : IsTotal String (fun a b : String => a.data ≤ b.data) := by
    rw [hrel]; infer_instance
  have htrans : IsTrans String (fun a b : String => a.data ≤ b.data) := by
    rw [hrel]; infer_instance
  have hsorted : (SortedMapKeys m).Sorted (fun a b : String => a.data ≤ b.data) :=
    List.sorted_insertionSort _ _
  have hle : (SortedMapKeys m).Sorted (· ≤ ·) := by
    rw [← hrel]; exact hsorted
  exact ⟨hle.lt_of_le (hperm.nodup_iff.mpr h), fun url => hperm.mem_iff⟩

theorem patchedStatuses_append (xs ys : List Effect) :
    patchedStatuses (xs ++ ys) = patchedStatuses xs ++ patchedStatuses ys := by
  induction xs with
  | nil => rfl
  | cons x xs ih =>
    cases x with
    | onPromoteUpdate key fn => cases fn <;> simp [patchedStatuses, ih]
    | _ => simp [patchedStatuses, ih]

theorem patchedStatuses_rebaseIfNotMergeable (d : Deps) (o : ControllerWorkflowOptions)
    (activity : PipelineActivity) (environments : EnvironmentInterface) (po : PromoteOptions)
    (envName : String) (pr : GitPullRequest) :
    patchedStatuses (rebaseIfNotMergeable d o activity environments po envName pr).2 = [] := by
  unfold rebaseIfNotMergeable
  repeat' split
  all_goals simp [patchedStatuses]

theorem patchedStatuses_checkCommitStatuses (d : Deps) (activity : PipelineActivity)
    (ns : String) (po : PromoteOptions) (env : Environment)
    (promoteKey : PromoteStepActivityKey) (statuses : List GitRepoStatus) (m t : StringMap)
    (hpos : statuses.length > 0) (hcollect : collectStatuses d [] [] statuses = some (m, t)) :
    patchedStatuses (checkCommitStatuses d activity ns po env promoteKey statuses).1 =
      [buildPrStatuses m t] := by
  unfold checkCommitStatuses
  simp only [hpos, if_true, hcollect]
  repeat' split
  all_goals simp [patchedStatuses]

/-- The list built from the maps of the status loop is the claimed entry of
each key, in the order of the sorted keys. -/
theorem buildPrStatuses_eq (statuses : List GitRepoStatus) (m t : StringMap)
    (h : StatusInvariant statuses m t) :
    buildPrStatuses m t = (SortedMapKeys m).map (claimedGitStatus statuses) := by
  unfold buildPrStatuses
  apply List.map_congr_left
  intro url hmem
  have hkey : url ∈ m.map Prod.fst := ((SortedMapKeys_sorted m h.nodup).2 url).mp hmem
  simp only [claimedGitStatus, h.state url, h.target url hkey]

/-- C5: for a polled promote step whose pull request is reported merged, with
the environment found and a non-empty list of commit statuses none of which is
failed, `checkPullRequest` issues exactly one statuses patch for the step; its
list has one entry per URL listed with a non-empty state, in strictly ascending
order of those URLs; the entry of URL `u` has status `success` if some status
listed for `u` is `success`, otherwise the state of the last status listed for
`u`, and as URL the target URL recorded when that state was last stored, or
`u` itself when that target URL is empty. -/
theorem checkPullRequest_patched_statuses (d : Deps) (o : ControllerWorkflowOptions)
    (activity : PipelineActivity) (environments : EnvironmentInterface) (ns : String)
    (step : PipelineActivityStep) (promote : PromoteActivityStep)
    (pullRequestStep : PromotePullRequestStep) (gitProvider : GitProvider)
    (gitInfo : GitRepositoryInfo) (prNumber : Int) (pr : GitPullRequest)
    (mergeSha : String) (env : Environment) (statuses : List GitRepoStatus)
    (h : Polled d o step promote pullRequestStep gitProvider gitInfo prNumber pr)
    (hmerged : pr.Merged = some true) (hsha : pr.MergeCommitSHA = some mergeSha)
    (henv : environments.Get promote.Environment = Except.ok env)
    (hlist : gitProvider.ListCommitStatus pr.Owner pr.Repo mergeSha = Except.ok statuses)
    (hnonempty : statuses ≠ [])
    (hnone : ∀ status ∈ statuses, d.IsFailed status = false) :
    ∃ urls : List String,
      urls.Sorted (· < ·) ∧
      (∀ url, url ∈ urls ↔ ∃ status ∈ statuses, status.URL = url ∧ status.State ≠ "") ∧
      patchedStatuses (checkPullRequestStep d o activity environments ns step).effects =
        [urls.map (claimedGitStatus statuses)] := by
  have hpos : statuses.length > 0 := List.length_pos.mpr hnonempty
  obtain ⟨m, t, hcollect, hinv⟩ :=
    collectStatuses_invariant d statuses hnone [] [] [] StatusInvariant.empty
  simp only [List.nil_append] at hinv
  obtain ⟨hsorted, hmem⟩ := SortedMapKeys_sorted m hinv.nodup
  refine ⟨SortedMapKeys m, hsorted, fun url => (hmem url).trans (hinv.keys url), ?_⟩
  obtain ⟨he, _⟩ := checkPullRequestStep_polled d o activity environments ns step promote
    pullRequestStep gitProvider gitInfo prNumber pr h _ rfl
  have hcs := patchedStatuses_checkCommitStatuses d activity ns
    (createPromoteOptionsFromActivity d activity promote.Environment) env
    (d.createPromoteKey (createPromoteOptionsFromActivity d activity promote.Environment) env)
    statuses m t hpos hcollect
  have htail := patchedStatuses_rebaseIfNotMergeable d o activity environments
    (createPromoteOptionsFromActivity d activity promote.Environment) promote.Environment pr
  rw [he, ← buildPrStatuses_eq statuses m t hinv]
  simp only [hmerged, if_true, checkMergedPullRequest, hsha, henv, hlist]
  split_ifs <;>
    simp [patchedStatuses, patchedStatuses_append, hcs, htail]

/-- Witness for C5: statuses in which `scan` goes pending, running, pending
and `ci` turns green before a later pending status; the patched list is
`ci` (green, target of the green status) before `scan` (pending, target of the
first status of the final pending run, which is empty, hence `scan`). -/
theorem checkPullRequest_patched_statuses_witness :
    ∃ urls : List String,
      urls.Sorted (· < ·) ∧
      (∀ url, url ∈ urls ↔ ∃ status ∈ mixedStatuses, status.URL = url ∧ status.State ≠ "") ∧
      patchedStatuses (checkPullRequestStep
          (providerDeps (sampleGitProvider (samplePullRequest (some true) (some "abc") none)
            mixedStatuses "success"))
          (sampleOptions GoMap.empty GoMap.empty) (sampleActivity ActivityStatusTypeRunning [stagingStep])
          sampleEnvironments "jx" stagingStep).effects =
        [urls.map (claimedGitStatus mixedStatuses)] :=
  checkPullRequest_patched_statuses
    (providerDeps (sampleGitProvider (samplePullRequest (some true) (some "abc") none)
      mixedStatuses "success"))
    (sampleOptions GoMap.empty GoMap.empty) (sampleActivity ActivityStatusTypeRunning [stagingStep])
    sampleEnvironments "jx" stagingStep
    { Environment := "staging", Status := ActivityStatusTypeRunning,
      PullRequest := some { PullRequestURL := "https://git.example/acme/acme-web/pull/42",
                            MergeCommitSHA := "" } }
    { PullRequestURL := "https://git.example/acme/acme-web/pull/42", MergeCommitSHA := "" }
    (sampleGitProvider (samplePullRequest (some true) (some "abc") none) mixedStatuses "success")
    sampleGitInfo 42 (samplePullRequest (some true) (some "abc") none) "abc" stagingEnvironment
    mixedStatuses
    ⟨rfl, by decide, rfl, by decide, by decide, rfl, rfl, rfl⟩ rfl rfl rfl rfl (by decide)
    (by decide)

/-! ### Completion of the update sub-step -/

theorem StringMap.get_of_mem (m : StringMap) (k v : String)
    (hnodup : (m.map Prod.fst).Nodup) (hmem : (k, v) ∈ m) : m.get k = v := by
  induction m with
  | nil => simp at hmem
  | cons kv rest ih =>
    obtain ⟨k', v'⟩ := kv
    simp only [List.map_cons, List.nodup_cons] at hnodup
    unfold StringMap.get
    rcases List.mem_cons.mp hmem with heq | hmem
    · simp only [Prod.mk.injEq] at heq
      simp [heq.1, heq.2]
    · have hne : k' ≠ k := by
        intro hk
        apply hnodup.1
        rw [hk]
        exact List.mem_map.mpr ⟨(k, v), hmem, rfl⟩
      simp only [hne, if_false]
      exact ih hnodup.2 hmem

/-- The `succeeded` flag of `checkPullRequest` is true exactly when every URL
listed with a non-empty state resolves to `success`. -/
theorem allSucceeded_iff (statuses : List GitRepoStatus) (m t : StringMap)
    (h : StatusInvariant statuses m t) :
    allSucceeded m = true ↔ AllResolvedSuccess statuses := by
  unfold allSucceeded AllResolvedSuccess
  rw [List.all_eq_true]
  constructor
  · intro hall url hlisted
    have hkey : url ∈ m.map Prod.fst := (h.keys url).mpr hlisted
    obtain ⟨⟨k, v⟩, hmem, hk⟩ := List.mem_map.mp hkey
    simp only at hk
    subst hk
    have hv := hall (k, v) hmem
    simp only [beq_iff_eq] at hv
    rw [← h.state k, StringMap.get_of_mem m k v h.nodup hmem, hv]
  · rintro hall ⟨k, v⟩ hmem
    have hkey : k ∈ m.map Prod.fst := List.mem_map.mpr ⟨(k, v), hmem, rfl⟩
    have hs := hall k ((h.keys k).mp hkey)
    simp only [beq_iff_eq]
    rw [← StringMap.get_of_mem m k v h.nodup hmem, h.state k, hs]

/-- The calls of the loop body of `checkPullRequest` on a polled step whose
pull request is reported merged with a merge commit SHA, once the environment
is found and the commit statuses are listed. -/
theorem checkPullRequestStep_merged_listed (d : Deps) (o : ControllerWorkflowOptions)
    (activity : PipelineActivity) (environments : EnvironmentInterface) (ns : String)
    (step : PipelineActivityStep) (promote : PromoteActivityStep)
    (pullRequestStep : PromotePullRequestStep) (gitProvider : GitProvider)
    (gitInfo : GitRepositoryInfo) (prNumber : Int) (pr : GitPullRequest)
    (mergeSha : String) (env : Environment) (statuses : List GitRepoStatus)
    (h : Polled d o step promote pullRequestStep gitProvider gitInfo prNumber pr)
    (hmerged : pr.Merged = some true) (hsha : pr.MergeCommitSHA = some mergeSha)
    (henv : environments.Get promote.Environment = Except.ok env)
    (hlist : gitProvider.ListCommitStatus pr.Owner pr.Repo mergeSha = Except.ok statuses)
    (r : List Effect × Bool)
    (hr : r = checkCommitStatuses d activity ns
      (createPromoteOptionsFromActivity d activity promote.Environment) env
      (d.createPromoteKey (createPromoteOptionsFromActivity d activity promote.Environment) env)
      statuses) :
    (checkPullRequestStep d o activity environments ns step).effects =
        [Effect.getPullRequest gitInfo.Organisation gitInfo prNumber,
         Effect.environmentsGet promote.Environment,
         Effect.onPromotePullRequest
           (d.createPromoteKey (createPromoteOptionsFromActivity d activity promote.Environment)
             env) (PullRequestPatch.mergedPR mergeSha),
         Effect.onPromoteUpdate
           (d.createPromoteKey (createPromoteOptionsFromActivity d activity promote.Environment)
             env) UpdatePatch.StartPromotionUpdate,
         Effect.listCommitStatus pr.Owner pr.Repo mergeSha] ++ r.1 ++
          (if r.2 then []
           else (rebaseIfNotMergeable d o activity environments
              (createPromoteOptionsFromActivity d activity promote.Environment)
              promote.Environment pr).2) ∧
      (checkPullRequestStep d o activity environments ns step).control =
        (if r.2 then Control.stop else Control.next) := by
  obtain ⟨he, hc⟩ := checkPullRequestStep_polled d o activity environments ns step promote
    pullRequestStep gitProvider gitInfo prNumber pr h _ rfl
  rw [he, hc]
  simp only [hmerged, if_true, checkMergedPullRequest, hsha, henv, hlist, ← hr]
  by_cases hret : r.2 = true <;> simp [hret]

/-- With a non-empty list of statuses none of which is failed, the part of
`checkPullRequest` after the listing patches the statuses and then, when every
listed URL resolves to `success`, goes on to the comment and returns;
otherwise it falls through to the end of the loop body. -/
theorem checkCommitStatuses_listed (d : Deps) (activity : PipelineActivity) (ns : String)
    (po : PromoteOptions) (env : Environment) (promoteKey : PromoteStepActivityKey)
    (statuses : List GitRepoStatus) (hnonempty : statuses ≠ [])
    (hnone : ∀ status ∈ statuses, d.IsFailed status = false) :
    ∃ prStatuses : List GitStatus,
      (AllResolvedSuccess statuses →
        checkCommitStatuses d activity ns po env promoteKey statuses =
          (if activity.Spec.GitURL = "" then
            ([Effect.onPromoteUpdate promoteKey (UpdatePatch.updateStatuses prStatuses)], true)
           else
            match d.ParseGitURL activity.Spec.GitURL with
            | (_, some _) =>
              ([Effect.onPromoteUpdate promoteKey (UpdatePatch.updateStatuses prStatuses)], true)
            | (gitInfo, none) =>
              match d.commentOnIssues { po with GitInfo := gitInfo } ns env promoteKey with
              | some _ =>
                ([Effect.onPromoteUpdate promoteKey (UpdatePatch.updateStatuses prStatuses),
                  Effect.commentOnIssues { po with GitInfo := gitInfo } ns env promoteKey],
                 true)
              | none =>
                ([Effect.onPromoteUpdate promoteKey (UpdatePatch.updateStatuses prStatuses),
                  Effect.commentOnIssues { po with GitInfo := gitInfo } ns env promoteKey,
                  Effect.onPromoteUpdate promoteKey UpdatePatch.CompletePromotionUpdate],
                 true))) ∧
      (¬ AllResolvedSuccess statuses →
        checkCommitStatuses d activity ns po env promoteKey statuses =
          ([Effect.onPromoteUpdate promoteKey (UpdatePatch.updateStatuses prStatuses)],
            false)) := by
  have hpos : statuses.length > 0 := List.length_pos.mpr hnonempty
  obtain ⟨m, t, hcollect, hinv⟩ :=
    collectStatuses_invariant d statuses hnone [] [] [] StatusInvariant.empty
  simp only [List.nil_append] at hinv
  have hiff := allSucceeded_iff statuses m t hinv
  refine ⟨buildPrStatuses m t, ?_, ?_⟩
  · intro hall
    have hs : allSucceeded m = true := hiff.mpr hall
    unfold checkCommitStatuses
    simp only [hpos, if_true, hcollect, hs]
  · intro hall
    have hs : ¬ allSucceeded m = true := fun hx => hall (hiff.mp hx)
    unfold checkCommitStatuses
    have hf : allSucceeded m = false := by simpa using hs
    simp only [hpos, if_true, hcollect, hf, Bool.false_eq_true, if_false]

theorem not_mem_rebaseIfNotMergeable (d : Deps) (o : ControllerWorkflowOptions)
    (activity : PipelineActivity) (environments : EnvironmentInterface) (po : PromoteOptions)
    (envName : String) (pr : GitPullRequest) (promoteKey : PromoteStepActivityKey)
    (fn : UpdatePatch) :
    Effect.onPromoteUpdate promoteKey fn ∉
      (rebaseIfNotMergeable d o activity environments po envName pr).2 := by
  unfold rebaseIfNotMergeable
  repeat' split
  all_goals simp

/-- C11 (amended): for a polled promote step whose pull request is reported
merged, with the environment found, a non-empty list of commit statuses none
of which is failed and all of which resolve to `success`, and the activity's
Git URL parsed, when comment-on-issues returns an error `checkPullRequest`
returns right after the comment call: the calls for the step end with the
statuses patch and the comment, and the patch that completes the update
sub-step is not issued. -/
theorem checkPullRequest_comment_error_stops (d : Deps) (o : ControllerWorkflowOptions)
    (activity : PipelineActivity) (environments : EnvironmentInterface) (ns : String)
    (step : PipelineActivityStep) (promote : PromoteActivityStep)
    (pullRequestStep : PromotePullRequestStep) (gitProvider : GitProvider)
    (gitInfo : GitRepositoryInfo) (prNumber : Int) (pr : GitPullRequest)
    (mergeSha : String) (env : Environment) (statuses : List GitRepoStatus)
    (activityGitInfo : Option GitRepositoryInfo) (err : String)
    (h : Polled d o step promote pullRequestStep gitProvider gitInfo prNumber pr)
    (hmerged : pr.Merged = some true) (hsha : pr.MergeCommitSHA = some mergeSha)
    (henv : environments.Get promote.Environment = Except.ok env)
    (hlist : gitProvider.ListCommitStatus pr.Owner pr.Repo mergeSha = Except.ok statuses)
    (hnonempty : statuses ≠ [])
    (hnone : ∀ status ∈ statuses, d.IsFailed status = false)
    (hgreen : AllResolvedSuccess statuses)
    (hurl : activity.Spec.GitURL ≠ "")
    (hparse : d.ParseGitURL activity.Spec.GitURL = (activityGitInfo, none))
    (hcomment : d.commentOnIssues
      { createPromoteOptionsFromActivity d activity promote.Environment with
        GitInfo := activityGitInfo } ns env
      (d.createPromoteKey (createPromoteOptionsFromActivity d activity promote.Environment) env)
      = some err) :
    (∃ prStatuses : List GitStatus,
      (checkPullRequestStep d o activity environments ns step).effects =
        [Effect.getPullRequest gitInfo.Organisation gitInfo prNumber,
         Effect.environmentsGet promote.Environment,
         Effect.onPromotePullRequest
           (d.createPromoteKey (createPromoteOptionsFromActivity d activity promote.Environment)
             env) (PullRequestPatch.mergedPR mergeSha),
         Effect.onPromoteUpdate
           (d.createPromoteKey (createPromoteOptionsFromActivity d activity promote.Environment)
             env) UpdatePatch.StartPromotionUpdate,
         Effect.listCommitStatus pr.Owner pr.Repo mergeSha,
         Effect.onPromoteUpdate
           (d.createPromoteKey (createPromoteOptionsFromActivity d activity promote.Environment)
             env) (UpdatePatch.updateStatuses prStatuses),
         Effect.commentOnIssues
           { createPromoteOptionsFromActivity d activity promote.Environment with
             GitInfo := activityGitInfo } ns env
           (d.createPromoteKey (createPromoteOptionsFromActivity d activity promote.Environment)
             env)]) ∧
      (∀ promoteKey : PromoteStepActivityKey,
        Effect.onPromoteUpdate promoteKey UpdatePatch.CompletePromotionUpdate ∉
          (checkPullRequestStep d o activity environments ns step).effects) ∧
      (checkPullRequestStep d o activity environments ns step).control = Control.stop := by
  obtain ⟨prStatuses, hall, _⟩ := checkCommitStatuses_listed d activity ns
    (createPromoteOptionsFromActivity d activity promote.Environment) env
    (d.createPromoteKey (createPromoteOptionsFromActivity d activity promote.Environment) env)
    statuses hnonempty hnone
  have hcs := hall hgreen
  simp only [hurl, if_false, hparse, hcomment] at hcs
  obtain ⟨he, hc⟩ := checkPullRequestStep_merged_listed d o activity environments ns step
    promote pullRequestStep gitProvider gitInfo prNumber pr mergeSha env statuses h hmerged
    hsha henv hlist _ rfl
  rw [he, hc, hcs]
  refine ⟨⟨prStatuses, by simp⟩, ?_, by simp⟩
  intro promoteKey
  simp

theorem commentOnIssues_not_mem_rebaseIfNotMergeable (d : Deps)
    (o : ControllerWorkflowOptions) (activity : PipelineActivity)
    (environments : EnvironmentInterface) (po : PromoteOptions) (envName : String)
    (pr : GitPullRequest) (po2 : PromoteOptions) (ns : String) (env : Environment)
    (promoteKey : PromoteStepActivityKey) :
    Effect.commentOnIssues po2 ns env promoteKey ∉
      (rebaseIfNotMergeable d o activity environments po envName pr).2 := by
  unfold rebaseIfNotMergeable
  repeat' split
  all_goals simp

/-- C14 (amended): for a polled promote step whose pull request is reported
merged with a merge commit SHA, when the environment lookup and the status
listing succeed, no listed status is failed, the activity's Git URL parses and
comment-on-issues succeeds, `checkPullRequest` issues the update-complete patch
if and only if the status list is non-empty and every entry of `urlStatusMap`
(every URL listed with a non-empty state) has state `success`.  The second
part ties the condition to the map the status loop builds: it is the
`succeeded` flag of the code.  The third part is the empty list: the calls
stop at the status listing (followed only by the rebase of a pull request that
is not mergeable), so no statuses patch, no comment-on-issues call and no
update-complete patch is issued. -/
theorem checkPullRequest_completes_iff_listed_green (d : Deps)
    (o : ControllerWorkflowOptions)
    (activity : PipelineActivity) (environments : EnvironmentInterface) (ns : String)
    (step : PipelineActivityStep) (promote : PromoteActivityStep)
    (pullRequestStep : PromotePullRequestStep) (gitProvider : GitProvider)
    (gitInfo : GitRepositoryInfo) (prNumber : Int) (pr : GitPullRequest)
    (mergeSha : String) (env : Environment) (statuses : List GitRepoStatus)
    (activityGitInfo : Option GitRepositoryInfo)
    (h : Polled d o step promote pullRequestStep gitProvider gitInfo prNumber pr)
    (hmerged : pr.Merged = some true) (hsha : pr.MergeCommitSHA = some mergeSha)
    (henv : environments.Get promote.Environment = Except.ok env)
    (hlist : gitProvider.ListCommitStatus pr.Owner pr.Repo mergeSha = Except.ok statuses)
    (hnone : ∀ status ∈ statuses, d.IsFailed status = false)
    (hurl : activity.Spec.GitURL ≠ "")
    (hparse : d.ParseGitURL activity.Spec.GitURL = (activityGitInfo, none))
    (hcomment : d.commentOnIssues
      { createPromoteOptionsFromActivity d activity promote.Environment with
        GitInfo := activityGitInfo } ns env
      (d.createPromoteKey (createPromoteOptionsFromActivity d activity promote.Environment) env)
      = none) :
    ((Effect.onPromoteUpdate
        (d.createPromoteKey (createPromoteOptionsFromActivity d activity promote.Environment)
          env) UpdatePatch.CompletePromotionUpdate ∈
      (checkPullRequestStep d o activity environments ns step).effects) ↔
      (statuses ≠ [] ∧ AllResolvedSuccess statuses)) ∧
    (∃ urlStatusMap urlStatusTargetURLMap : StringMap,
      collectStatuses d [] [] statuses = some (urlStatusMap, urlStatusTargetURLMap) ∧
      (AllResolvedSuccess statuses ↔ allSucceeded urlStatusMap = true)) ∧
    (statuses = [] →
      (checkPullRequestStep d o activity environments ns step).effects =
        [Effect.getPullRequest gitInfo.Organisation gitInfo prNumber,
         Effect.environmentsGet promote.Environment,
         Effect.onPromotePullRequest
           (d.createPromoteKey (createPromoteOptionsFromActivity d activity promote.Environment)
             env) (PullRequestPatch.mergedPR mergeSha),
         Effect.onPromoteUpdate
           (d.createPromoteKey (createPromoteOptionsFromActivity d activity promote.Environment)
             env) UpdatePatch.StartPromotionUpdate,
         Effect.listCommitStatus pr.Owner pr.Repo mergeSha] ++
          (rebaseIfNotMergeable d o activity environments
            (createPromoteOptionsFromActivity d activity promote.Environment)
            promote.Environment pr).2 ∧
      (∀ (promoteKey : PromoteStepActivityKey) (prStatuses : List GitStatus),
        Effect.onPromoteUpdate promoteKey (UpdatePatch.updateStatuses prStatuses) ∉
          (checkPullRequestStep d o activity environments ns step).effects) ∧
      (∀ (po : PromoteOptions) (ns2 : String) (env2 : Environment)
          (promoteKey : PromoteStepActivityKey),
        Effect.commentOnIssues po ns2 env2 promoteKey ∉
          (checkPullRequestStep d o activity environments ns step).effects) ∧
      (∀ promoteKey : PromoteStepActivityKey,
        Effect.onPromoteUpdate promoteKey UpdatePatch.CompletePromotionUpdate ∉
          (checkPullRequestStep d o activity environments ns step).effects)) := by
  obtain ⟨he, _⟩ := checkPullRequestStep_merged_listed d o activity environments ns step
    promote pullRequestStep gitProvider gitInfo prNumber pr mergeSha env statuses h hmerged
    hsha henv hlist _ rfl
  have htail := not_mem_rebaseIfNotMergeable d o activity environments
    (createPromoteOptionsFromActivity d activity promote.Environment) promote.Environment pr
  have hnocomment := commentOnIssues_not_mem_rebaseIfNotMergeable d o activity environments
    (createPromoteOptionsFromActivity d activity promote.Environment) promote.Environment pr
  refine ⟨?_, ?_, ?_⟩
  · rw [he]
    by_cases hnonempty : statuses = []
    · subst hnonempty
      simp [checkCommitStatuses, htail]
    · obtain ⟨prStatuses, hall, hnot⟩ := checkCommitStatuses_listed d activity ns
        (createPromoteOptionsFromActivity d activity promote.Environment) env
        (d.createPromoteKey (createPromoteOptionsFromActivity d activity promote.Environment)
          env)
        statuses hnonempty hnone
      by_cases hgreen : AllResolvedSuccess statuses
      · have hcs := hall hgreen
        simp only [hurl, if_false, hparse, hcomment] at hcs
        rw [hcs]
        simp [hnonempty, hgreen]
      · rw [hnot hgreen]
        simp [hnonempty, hgreen, htail]
  · obtain ⟨m, t, hcollect, hinv⟩ :=
      collectStatuses_invariant d statuses hnone [] [] [] StatusInvariant.empty
    simp only [List.nil_append] at hinv
    exact ⟨m, t, hcollect, (allSucceeded_iff statuses m t hinv).symm⟩
  · intro hnil
    subst hnil
    rw [he]
    refine ⟨by simp [checkCommitStatuses], ?_, ?_, ?_⟩
    · intro promoteKey prStatuses
      simp [checkCommitStatuses, htail]
    · intro po ns2 env2 promoteKey
      simp [checkCommitStatuses, hnocomment]
    · intro promoteKey
      simp [checkCommitStatuses, htail]

theorem greenStatuses_allResolvedSuccess : AllResolvedSuccess greenStatuses := by
  rintro url ⟨status, hmem, hurl, _⟩
  simp only [greenStatuses, List.mem_cons, List.mem_singleton, List.not_mem_nil,
    or_false] at hmem
  rcases hmem with rfl | rfl
  · subst hurl; decide
  · subst hurl; decide

/-- Witness for C11 (amended): scenario S2 with a comment-on-issues call that
fails; the function returns after the comment. -/
theorem checkPullRequest_comment_error_stops_witness :
    (checkPullRequestStep
        (failingCommentDeps (sampleGitProvider (samplePullRequest (some true) (some "abc") none)
          greenStatuses "success"))
        (sampleOptions GoMap.empty GoMap.empty)
        (sampleActivity ActivityStatusTypeRunning [stagingStep])
        sampleEnvironments "jx" stagingStep).control = Control.stop :=
  (checkPullRequest_comment_error_stops
    (failingCommentDeps (sampleGitProvider (samplePullRequest (some true) (some "abc") none)
      greenStatuses "success"))
    (sampleOptions GoMap.empty GoMap.empty)
    (sampleActivity ActivityStatusTypeRunning [stagingStep])
    sampleEnvironments "jx" stagingStep
    { Environment := "staging", Status := ActivityStatusTypeRunning,
      PullRequest := some { PullRequestURL := "https://git.example/acme/acme-web/pull/42",
                            MergeCommitSHA := "" } }
    { PullRequestURL := "https://git.example/acme/acme-web/pull/42", MergeCommitSHA := "" }
    (sampleGitProvider (samplePullRequest (some true) (some "abc") none) greenStatuses "success")
    sampleGitInfo 42 (samplePullRequest (some true) (some "abc") none) "abc" stagingEnvironment
    greenStatuses
    (some { URL := "https://git.example/acme/acme-web.git", Organisation := "acme",
            Name := "acme-web" })
    "cannot comment"
    ⟨rfl, by decide, rfl, by decide, by decide, rfl, rfl, rfl⟩ rfl rfl rfl rfl (by decide)
    (by decide) greenStatuses_allResolvedSuccess (by decide) rfl rfl).2.2

/-- Counterexample to C11 as stated: scenario S2 (pull request 42 merged at
`abc`, both statuses `success`) with a comment-on-issues call that returns an
error; the calls end with the comment and no update-complete patch follows. -/
theorem checkPullRequest_comment_error_skips_completion :
    (failingCommentDeps (sampleGitProvider (samplePullRequest (some true) (some "abc") none)
        greenStatuses "success")).commentOnIssues
        { stagingPromoteOptions with GitInfo := some sampleGitInfo } "jx" stagingEnvironment
        stagingPromoteKey = some "cannot comment" ∧
      (checkPullRequestStep
          (failingCommentDeps (sampleGitProvider
            (samplePullRequest (some true) (some "abc") none) greenStatuses "success"))
          (sampleOptions GoMap.empty GoMap.empty)
          (sampleActivity ActivityStatusTypeRunning [stagingStep])
          sampleEnvironments "jx" stagingStep).effects =
        [Effect.getPullRequest "acme" sampleGitInfo 42,
         Effect.environmentsGet "staging",
         Effect.onPromotePullRequest stagingPromoteKey (PullRequestPatch.mergedPR "abc"),
         Effect.onPromoteUpdate stagingPromoteKey UpdatePatch.StartPromotionUpdate,
         Effect.listCommitStatus "acme" "acme-web" "abc",
         Effect.onPromoteUpdate stagingPromoteKey (UpdatePatch.updateStatuses
           [{ URL := "ci-link", Status := "success" }, { URL := "scan", Status := "success" }]),
         Effect.commentOnIssues { stagingPromoteOptions with GitInfo := some sampleGitInfo }
           "jx" stagingEnvironment stagingPromoteKey] := by
  decide

/-- Witness for C14 (amended): scenario S2, two green statuses; the
update-complete patch is issued. -/
theorem checkPullRequest_completes_iff_listed_green_witness :
    Effect.onPromoteUpdate stagingPromoteKey UpdatePatch.CompletePromotionUpdate ∈
      (checkPullRequestStep
        (providerDeps (sampleGitProvider (samplePullRequest (some true) (some "abc") none)
          greenStatuses "success"))
        (sampleOptions GoMap.empty GoMap.empty)
        (sampleActivity ActivityStatusTypeRunning [stagingStep])
        sampleEnvironments "jx" stagingStep).effects :=
  (checkPullRequest_completes_iff_listed_green
    (providerDeps (sampleGitProvider (samplePullRequest (some true) (some "abc") none)
      greenStatuses "success"))
    (sampleOptions GoMap.empty GoMap.empty)
    (sampleActivity ActivityStatusTypeRunning [stagingStep])
    sampleEnvironments "jx" stagingStep
    { Environment := "staging", Status := ActivityStatusTypeRunning,
      PullRequest := some { PullRequestURL := "https://git.example/acme/acme-web/pull/42",
                            MergeCommitSHA := "" } }
    { PullRequestURL := "https://git.example/acme/acme-web/pull/42", MergeCommitSHA := "" }
    (sampleGitProvider (samplePullRequest (some true) (some "abc") none) greenStatuses "success")
    sampleGitInfo 42 (samplePullRequest (some true) (some "abc") none) "abc" stagingEnvironment
    greenStatuses
    (some { URL := "https://git.example/acme/acme-web.git", Organisation := "acme",
            Name := "acme-web" })
    ⟨rfl, by decide, rfl, by decide, by decide, rfl, rfl, rfl⟩ rfl rfl rfl rfl
    (by decide) (by decide) rfl rfl).1.mpr ⟨by decide, greenStatuses_allResolvedSuccess⟩

/-- Counterexample to C14 as stated: pull request 42 merged at `abc` with an
empty status list; `urlStatusMap` has no entry, so every entry is `success`,
yet the calls stop at the status listing and no update-complete patch is
issued. -/
theorem checkPullRequest_empty_statuses_no_completion :
    allSucceeded [] = true ∧
      (checkPullRequestStep
          (providerDeps (sampleGitProvider (samplePullRequest (some true) (some "abc") none)
            [] "success"))
          (sampleOptions GoMap.empty GoMap.empty)
          (sampleActivity ActivityStatusTypeRunning [stagingStep])
          sampleEnvironments "jx" stagingStep).effects =
        [Effect.getPullRequest "acme" sampleGitInfo 42,
         Effect.environmentsGet "staging",
         Effect.onPromotePullRequest stagingPromoteKey (PullRequestPatch.mergedPR "abc"),
         Effect.onPromoteUpdate stagingPromoteKey UpdatePatch.StartPromotionUpdate,
         Effect.listCommitStatus "acme" "acme-web" "abc"] := by
  decide

/-! ### Skipped steps, parse failures and missing pull request records -/

/-- A step without a promote payload, with a terminal promote status, or with
a pull request record whose URL is empty is passed over: no call, and the loop
goes on. -/
theorem checkPullRequestStep_skips (d : Deps) (o : ControllerWorkflowOptions)
    (activity : PipelineActivity) (environments : EnvironmentInterface) (ns : String)
    (step : PipelineActivityStep)
    (hskip : step.Promote = none ∨
      (∃ promote, step.Promote = some promote ∧ IsTerminated promote.Status = true) ∨
      (∃ promote pullRequestStep, step.Promote = some promote ∧
        promote.PullRequest = some pullRequestStep ∧ pullRequestStep.PullRequestURL = "")) :
    (checkPullRequestStep d o activity environments ns step).effects = [] ∧
      (checkPullRequestStep d o activity environments ns step).control = Control.next := by
  unfold checkPullRequestStep
  rcases hskip with h | ⟨promote, h, ht⟩ | ⟨promote, pullRequestStep, h, hpr, hurl⟩
  · simp [h]
  · simp [h, ht]
  · by_cases ht : IsTerminated promote.Status = true
    · simp [h, ht]
    · simp [h, ht, hpr, hurl]

/-- A non-terminal promote step without a pull request record makes the loop
body read through the nil pointer: the goroutine panics. -/
theorem checkPullRequestStep_panics (d : Deps) (o : ControllerWorkflowOptions)
    (activity : PipelineActivity) (environments : EnvironmentInterface) (ns : String)
    (step : PipelineActivityStep) (promote : PromoteActivityStep)
    (hpromote : step.Promote = some promote) (hrunning : IsTerminated promote.Status = false)
    (hnil : promote.PullRequest = none) :
    (checkPullRequestStep d o activity environments ns step).control = Control.panic := by
  simp [checkPullRequestStep, hpromote, hrunning, hnil]

/-- A polled step whose pull request URL yields no Git provider or no pull
request number makes `checkPullRequest` return at once: no call is made for
the step, and none for any later step. -/
theorem checkPullRequestLoop_parse_failure (d : Deps) (o : ControllerWorkflowOptions)
    (activity : PipelineActivity) (environments : EnvironmentInterface) (ns : String)
    (step : PipelineActivityStep) (rest : List PipelineActivityStep)
    (promote : PromoteActivityStep) (pullRequestStep : PromotePullRequestStep)
    (hpromote : step.Promote = some promote) (hrunning : IsTerminated promote.Status = false)
    (hpr : promote.PullRequest = some pullRequestStep)
    (hurl : pullRequestStep.PullRequestURL ≠ "") (henv : promote.Environment ≠ "")
    (hfail : (∃ err, (createGitProviderForPR d o pullRequestStep.PullRequestURL).2.2 = some err) ∨
      (∃ err, pullRequestURLToNumber pullRequestStep.PullRequestURL = Except.error err)) :
    (checkPullRequestLoop d activity environments ns o (step :: rest)).effects = [] ∧
      (checkPullRequestLoop d activity environments ns o (step :: rest)).control =
        Control.stop := by
  have hstep : (checkPullRequestStep d o activity environments ns step).effects = [] ∧
      (checkPullRequestStep d o activity environments ns step).control = Control.stop := by
    unfold checkPullRequestStep
    simp only [hpromote, hrunning, hpr, hurl, henv, Bool.false_eq_true, if_false, or_self]
    rcases hfail with ⟨err, herr⟩ | ⟨err, herr⟩
    · rcases hc : createGitProviderForPR d o pullRequestStep.PullRequestURL with ⟨a, b, c⟩
      rw [hc] at herr
      simp only at herr
      subst herr
      simp
    · rcases hc : createGitProviderForPR d o pullRequestStep.PullRequestURL with
        ⟨_ | a, _ | b, _ | c⟩ <;> simp [herr]
  rw [checkPullRequestLoop]
  simp only [hstep.2]
  exact ⟨hstep.1, trivial⟩

/-- C12: in an activity whose steps are a running promote step with the pull
request URL `.../pull/abc` followed by a running promote step with the
well-formed URL `.../pull/43`, `checkPullRequest` makes no call at all and
returns, so the second step is not queried; on the second step alone it does
query the Git host. -/
theorem checkPullRequest_parse_failure_abandons_later_steps :
    (checkPullRequest
        (providerDeps (sampleGitProvider (samplePullRequest (some false) none none) []
          "pending"))
        (sampleOptions GoMap.empty GoMap.empty)
        (sampleActivity ActivityStatusTypeRunning [unparsableStep, productionStep])
        sampleEnvironments "jx").effects = [] ∧
      (checkPullRequest
        (providerDeps (sampleGitProvider (samplePullRequest (some false) none none) []
          "pending"))
        (sampleOptions GoMap.empty GoMap.empty)
        (sampleActivity ActivityStatusTypeRunning [unparsableStep, productionStep])
        sampleEnvironments "jx").control = Control.stop ∧
      (checkPullRequest
        (providerDeps (sampleGitProvider (samplePullRequest (some false) none none) []
          "pending"))
        (sampleOptions GoMap.empty GoMap.empty)
        (sampleActivity ActivityStatusTypeRunning [productionStep])
        sampleEnvironments "jx").effects =
        [Effect.getPullRequest "acme" sampleGitInfo 43,
         Effect.pullRequestLastCommitStatus (samplePullRequest (some false) none none)] := by
  decide

/-- C13: on an activity on `master` whose only step is a pending promote step
without a pull request sub-record, `checkPullRequest` does not return: it
panics on the read of the record's URL. -/
theorem checkPullRequest_panics_without_pull_request_record :
    (checkPullRequest sampleDeps (sampleOptions GoMap.empty GoMap.empty)
        (sampleActivity ActivityStatusTypeRunning [pendingStep])
        sampleEnvironments "jx").control = Control.panic := by
  decide

/-! ### Pull request URLs -/

theorem digitChar_toNat (d : Nat) (h : d < 10) : (Nat.digitChar d).toNat = 48 + d := by
  interval_cases d <;> rfl

theorem parseDigits_toDigitsCore (fuel : Nat) :
    ∀ (n : Nat) (ds : List Char), n < fuel →
      ∃ k, ∀ acc, parseDigits acc (Nat.toDigitsCore 10 fuel n ds) =
        parseDigits (acc * 10 ^ k + n) ds := by
  induction fuel with
  | zero => intro n ds h; omega
  | succ fuel ih =>
    intro n ds hlt
    have hd : n % 10 < 10 := Nat.mod_lt _ (by decide)
    have hc := digitChar_toNat (n % 10) hd
    have hstep : ∀ acc rest, parseDigits acc (Nat.digitChar (n % 10) :: rest) =
        parseDigits (acc * 10 + n % 10) rest := by
      intro acc rest
      have h1 : 48 ≤ (Nat.digitChar (n % 10)).toNat ∧ (Nat.digitChar (n % 10)).toNat ≤ 57 := by
        rw [hc]; omega
      rw [parseDigits, if_pos h1, hc]
      congr 2
      omega
    unfold Nat.toDigitsCore
    by_cases hz : n / 10 = 0
    · refine ⟨1, fun acc => ?_⟩
      simp only [hz, if_true]
      rw [hstep]
      congr 1
      omega
    · obtain ⟨k, hk⟩ := ih (n / 10) (Nat.digitChar (n % 10) :: ds) (by omega)
      refine ⟨k + 1, fun acc => ?_⟩
      simp only [hz, if_false]
      rw [hk, hstep]
      congr 1
      rw [pow_succ]
      have := Nat.div_add_mod n 10
      nlinarith [Nat.div_add_mod n 10]

/-- Reading the decimal numeral of `n` gives back `n`. -/
theorem parseDigits_toDigits (n : Nat) : parseDigits 0 (Nat.toDigits 10 n) = some n := by
  obtain ⟨k, hk⟩ := parseDigits_toDigitsCore (n + 1) n [] (Nat.lt_succ_self n)
  rw [Nat.toDigits, hk 0]
  simp [parseDigits]

theorem parseDigits_all_digits (ds : List Char) :
    ∀ acc n, parseDigits acc ds = some n → ∀ c ∈ ds, isDecimalDigit c = true := by
  induction ds with
  | nil => intro _ _ _ c hc; simp at hc
  | cons d ds ih =>
    intro acc n h c hc
    unfold parseDigits at h
    by_cases hd : 48 ≤ d.toNat ∧ d.toNat ≤ 57
    · rw [if_pos hd] at h
      rcases List.mem_cons.mp hc with rfl | hc
      · simp [isDecimalDigit, hd]
      · exact ih _ _ h c hc
    · rw [if_neg hd] at h
      cases h

theorem toDigitsCore_ne_nil (fuel n : Nat) (ds : List Char) (h : 0 < fuel) :
    Nat.toDigitsCore 10 fuel n ds ≠ [] := by
  induction fuel generalizing n ds with
  | zero => omega
  | succ fuel ih =>
    unfold Nat.toDigitsCore
    by_cases hz : n / 10 = 0
    · simp [hz]
    · simp only [hz, if_false]
      cases fuel with
      | zero => simp [Nat.toDigitsCore]
      | succ fuel => exact ih _ _ (Nat.succ_pos _)

theorem toDigits_ne_nil (n : Nat) : Nat.toDigits 10 n ≠ [] :=
  toDigitsCore_ne_nil (n + 1) n [] (Nat.succ_pos _)

theorem toDigits_all_digits (n : Nat) : ∀ c ∈ Nat.toDigits 10 n, isDecimalDigit c = true :=
  parseDigits_all_digits _ 0 n (parseDigits_toDigits n)

theorem isDecimalDigit_ne_slash (c : Char) (h : isDecimalDigit c = true) :
    c ≠ '/' ∧ c ≠ '+' ∧ c ≠ '-' := by
  simp only [isDecimalDigit, decide_eq_true_eq] at h
  refine ⟨?_, ?_, ?_⟩ <;> (rintro rfl; revert h; decide)

theorem splitOnChar_no_sep (sep : Char) (ys : List Char) (h : sep ∉ ys) :
    splitOnChar sep ys = [ys] := by
  induction ys with
  | nil => rfl
  | cons c cs ih =>
    simp only [List.mem_cons, not_or] at h
    have hc : ¬ c = sep := fun hx => h.1 hx.symm
    rw [splitOnChar, if_neg hc, ih h.2]

theorem splitOnChar_append_sep (sep : Char) (xs ys : List Char) (h : sep ∉ ys) :
    ∃ first middle, splitOnChar sep (xs ++ sep :: ys) = first :: (middle ++ [ys]) := by
  induction xs with
  | nil =>
    refine ⟨[], [], ?_⟩
    rw [List.nil_append, splitOnChar, if_pos rfl, splitOnChar_no_sep sep ys h]
    rfl
  | cons c cs ih =>
    obtain ⟨first, middle, heq⟩ := ih
    rw [List.cons_append, splitOnChar, heq]
    by_cases hc : c = sep
    · exact ⟨[], first :: middle, by rw [if_pos hc]; rfl⟩
    · exact ⟨c :: first, middle, by rw [if_neg hc]⟩

/-- The last piece of a text is the text itself when it has no separator, and
what follows the last separator otherwise. -/
theorem getLastD_stringsSplit (text : String) (sep : Char) (pre seg : List Char)
    (hseg : sep ∉ seg) (htext : text.data = seg ∨ text.data = pre ++ sep :: seg) :
    (stringsSplit text sep).getLastD "" = String.mk seg := by
  unfold stringsSplit
  rcases htext with h | h
  · rw [h, splitOnChar_no_sep sep seg hseg]
    rfl
  · obtain ⟨first, middle, heq⟩ := splitOnChar_append_sep sep pre seg hseg
    rw [h, heq]
    simp [List.getLastD]

theorem lastIndexOf_no_sep (sep : Char) (ys : List Char) (h : sep ∉ ys) :
    lastIndexOf sep ys = none := by
  induction ys with
  | nil => rfl
  | cons c cs ih =>
    simp only [List.mem_cons, not_or] at h
    have hc : ¬ c = sep := fun hx => h.1 hx.symm
    rw [lastIndexOf, ih h.2]
    simp [hc]

theorem lastIndexOf_append_sep (sep : Char) (xs ys : List Char) (h : sep ∉ ys) :
    lastIndexOf sep (xs ++ sep :: ys) = some xs.length := by
  induction xs with
  | nil =>
    rw [List.nil_append, lastIndexOf, lastIndexOf_no_sep sep ys h]
    simp
  | cons c cs ih =>
    rw [List.cons_append, lastIndexOf, ih]
    rfl

/-- Cutting a text at its last separator keeps what precedes the separator;
the index is that prefix's length. -/
theorem sliceTo_stringsLastIndex (text : String) (sep : Char) (xs ys : List Char)
    (h : sep ∉ ys) (htext : text.data = xs ++ sep :: ys) :
    stringsLastIndex text sep = (xs.length : Int) ∧
      sliceTo text (stringsLastIndex text sep) = String.mk xs := by
  have hidx : stringsLastIndex text sep = (xs.length : Int) := by
    unfold stringsLastIndex
    rw [htext, lastIndexOf_append_sep sep xs ys h]
  refine ⟨hidx, ?_⟩
  rw [hidx]
  unfold sliceTo
  rw [htext]
  simp

/-- `strconv.Atoi` reads the decimal numeral of a natural number below `2^63`
back as that number. -/
theorem strconvAtoi_repr (n : Nat) (hn : n < 2 ^ 63) :
    strconvAtoi (Nat.repr n) = Except.ok (n : Int) := by
  have hne := toDigits_ne_nil n
  have hall := toDigits_all_digits n
  have hparse := parseDigits_toDigits n
  have hdata : (Nat.repr n).data = Nat.toDigits 10 n := rfl
  rcases hds : Nat.toDigits 10 n with _ | ⟨c, cs⟩
  · exact absurd hds hne
  · rw [hds] at hall hparse
    have hc := isDecimalDigit_ne_slash c (hall c (List.mem_cons_self _ _))
    have hrange : -(2 : Int) ^ 63 ≤ (n : Int) ∧ (n : Int) ≤ (2 : Int) ^ 63 - 1 := by
      constructor
      · have : (0 : Int) ≤ (n : Int) := Int.ofNat_nonneg n
        have h2 : (0 : Int) ≤ (2 : Int) ^ 63 := by positivity
        omega
      · have : (n : Int) < (2 : Int) ^ 63 := by exact_mod_cast hn
        omega
    unfold strconvAtoi
    split
    · rename_i rest heq
      rw [hdata, hds] at heq
      exact absurd (List.cons.inj heq).1 hc.2.1
    · rename_i rest heq
      rw [hdata, hds] at heq
      exact absurd (List.cons.inj heq).1 hc.2.2
    · simp only [hdata, hds, hparse, Bool.false_eq_true, if_false]
      rw [if_pos hrange]

/-- Whatever `strconv.Atoi` accepts is a decimal integer. -/
theorem strconvAtoi_ok_decimal (s : String) (v : Int) (h : strconvAtoi s = Except.ok v) :
    IsDecimalInteger s := by
  unfold strconvAtoi at h
  have key : ∀ (neg : Bool) (digits : List Char),
      (match (neg, digits).2 with
        | [] => (Except.error "invalid syntax" : Except String Int)
        | digits =>
          match parseDigits 0 digits with
          | none => Except.error "invalid syntax"
          | some n =>
            let value : Int := if (neg, digits).1 then -(n : Int) else (n : Int)
            if -(2 : Int) ^ 63 ≤ value ∧ value ≤ (2 : Int) ^ 63 - 1 then Except.ok value
            else Except.error "value out of range") = Except.ok v →
      digits ≠ [] ∧ ∀ c ∈ digits, isDecimalDigit c = true := by
    intro neg digits hx
    cases digits with
    | nil => cases hx
    | cons c cs =>
      simp only at hx
      cases hp : parseDigits 0 (c :: cs) with
      | none => rw [hp] at hx; cases hx
      | some n => exact ⟨by simp, parseDigits_all_digits _ 0 n hp⟩
  split at h
  · rename_i rest heq
    obtain ⟨hne, hall⟩ := key false rest h
    exact ⟨rest, hne, hall, Or.inr (Or.inl heq)⟩
  · rename_i rest heq
    obtain ⟨hne, hall⟩ := key true rest h
    exact ⟨rest, hne, hall, Or.inr (Or.inr heq)⟩
  · obtain ⟨hne, hall⟩ := key false s.data h
    exact ⟨s.data, hne, hall, Or.inl rfl⟩

theorem pullRequestURLOf_data (base seg : String) (n : Nat) :
    (pullRequestURLOf base seg n).data =
      (base.data ++ '/' :: seg.data) ++ '/' :: Nat.toDigits 10 n := by
  have hdata : (Nat.repr n).data = Nat.toDigits 10 n := rfl
  have hslash : ("/" : String).data = ['/'] := rfl
  simp only [pullRequestURLOf, String.data_append, hdata, hslash, List.append_assoc,
    List.singleton_append]

theorem stringsTrimSuffix_pullRequestURLOf (base seg : String) (n : Nat) :
    stringsTrimSuffix (pullRequestURLOf base seg n) '/' = pullRequestURLOf base seg n := by
  unfold stringsTrimSuffix
  have hne := toDigits_ne_nil n
  have hlast : (pullRequestURLOf base seg n).data.getLast? ≠ some '/' := by
    rw [pullRequestURLOf_data]
    intro hx
    have hmem : '/' ∈ Nat.toDigits 10 n := by
      rcases hds : Nat.toDigits 10 n with _ | ⟨c, cs⟩
      · exact absurd hds hne
      · rw [hds] at hx
        have hx2 : (c :: cs).getLast? = some '/' := by
          rw [← hx, List.getLast?_append_cons, List.getLast?_cons_cons]
        exact List.mem_of_getLast?_eq_some hx2
    exact (isDecimalDigit_ne_slash '/' (toDigits_all_digits n '/' hmem)).1 rfl
  rw [if_neg hlast]

theorem pullRequestURLToNumber_pullRequestURLOf (base seg : String) (n : Nat)
    (hn : n < 2 ^ 63) :
    pullRequestURLToNumber (pullRequestURLOf base seg n) = Except.ok (n : Int) := by
  have hno : '/' ∉ Nat.toDigits 10 n := fun hmem =>
    (isDecimalDigit_ne_slash '/' (toDigits_all_digits n '/' hmem)).1 rfl
  have hlast : (stringsSplit (pullRequestURLOf base seg n) '/').getLastD "" = Nat.repr n :=
    getLastD_stringsSplit _ '/' (base.data ++ '/' :: seg.data) (Nat.toDigits 10 n) hno
      (Or.inr (pullRequestURLOf_data base seg n))
  unfold pullRequestURLToNumber
  simp only [stringsTrimSuffix_pullRequestURLOf, hlast, strconvAtoi_repr n hn]

theorem pullRequestGitURL_pullRequestURLOf (base seg : String) (n : Nat)
    (hbase : base ≠ "") (hseg : '/' ∉ seg.data) :
    pullRequestGitURL (pullRequestURLOf base seg n) = Except.ok (base ++ ".git") := by
  have hno : '/' ∉ Nat.toDigits 10 n := fun hmem =>
    (isDecimalDigit_ne_slash '/' (toDigits_all_digits n '/' hmem)).1 rfl
  have hlen : 0 < base.data.length := by
    rcases hb : base.data with _ | ⟨c, cs⟩
    · exact absurd (String.ext hb) hbase
    · simp
  obtain ⟨hidx1, hcut1⟩ := sliceTo_stringsLastIndex (pullRequestURLOf base seg n) '/'
    (base.data ++ '/' :: seg.data) (Nat.toDigits 10 n) hno (pullRequestURLOf_data base seg n)
  obtain ⟨hidx2, hcut2⟩ := sliceTo_stringsLastIndex (String.mk (base.data ++ '/' :: seg.data))
    '/' base.data seg.data hseg rfl
  have hpos1 : ¬ stringsLastIndex (pullRequestURLOf base seg n) '/' ≤ 0 := by
    rw [hidx1]
    simp only [List.length_append, List.length_cons]
    omega
  have hpos2 : ¬ stringsLastIndex (String.mk (base.data ++ '/' :: seg.data)) '/' ≤ 0 := by
    rw [hidx2]
    omega
  unfold pullRequestGitURL
  simp only [hpos1, if_false, hcut1, hpos2, hcut2]

/-- C15 (amended): for every non-empty `base`, every segment `seg` without `/`
and every natural number `n` below `2^63` (the range of Go's 64-bit `int`), on
the URL `base/seg/n` with `n` written in decimal `pullRequestURLToNumber`
returns `n` without error and `createGitProviderForPR` derives the Git URL
`base.git` and hands it to the Git URL parser (of the fake provider, or of the
provider lookup); and `pullRequestURLToNumber` returns an error whenever the
trailing path segment, after one trailing `/` is removed, is not a decimal
integer (an optional sign followed by decimal digits). -/
theorem pullRequestURL_number_and_git_url (base seg : String) (n : Nat)
    (hbase : base ≠ "") (hseg : '/' ∉ seg.data) (hn : n < 2 ^ 63) :
    pullRequestURLToNumber (base ++ "/" ++ seg ++ "/" ++ Nat.repr n) = Except.ok (n : Int) ∧
      pullRequestGitURL (base ++ "/" ++ seg ++ "/" ++ Nat.repr n) =
        Except.ok (base ++ ".git") ∧
      (∀ (d : Deps) (o : ControllerWorkflowOptions),
        createGitProviderForPR d o (base ++ "/" ++ seg ++ "/" ++ Nat.repr n) =
          match o.FakeGitProvider with
          | some fake =>
            match d.ParseGitURL (base ++ ".git") with
            | (gitInfo, some err) => (none, gitInfo, some err)
            | (gitInfo, none) => (some fake, gitInfo, none)
          | none =>
            match d.createGitProviderForURLWithoutKind (base ++ ".git") with
            | (answer, gitInfo, some err) =>
              (answer, gitInfo, some ("Failed for git URL " ++ (base ++ ".git") ++ ": " ++ err))
            | (answer, gitInfo, none) => (answer, gitInfo, none)) ∧
      (∀ text pre segment : String, '/' ∉ segment.data →
        (stringsTrimSuffix text '/' = segment ∨
          stringsTrimSuffix text '/' = pre ++ "/" ++ segment) →
        ¬ IsDecimalInteger segment →
        ∃ err, pullRequestURLToNumber text = Except.error err) := by
  have hgit := pullRequestGitURL_pullRequestURLOf base seg n hbase hseg
  refine ⟨pullRequestURLToNumber_pullRequestURLOf base seg n hn, hgit, ?_, ?_⟩
  · intro d o
    unfold pullRequestURLOf at hgit
    unfold createGitProviderForPR
    rw [hgit]
  · intro text pre segment hno htrim hnot
    have hlast : (stringsSplit (stringsTrimSuffix text '/') '/').getLastD "" = segment := by
      apply getLastD_stringsSplit _ '/' pre.data segment.data hno
      rcases htrim with h | h
      · exact Or.inl (by rw [h])
      · refine Or.inr ?_
        rw [h]
        have hslash : ("/" : String).data = ['/'] := rfl
        simp [String.data_append, hslash]
    unfold pullRequestURLToNumber
    simp only [hlast]
    cases hatoi : strconvAtoi segment with
    | error err => exact ⟨_, rfl⟩
    | ok v => exact absurd (strconvAtoi_ok_decimal segment v hatoi) hnot

/-- Witness for C15 (amended): the URL of scenario S2, pull request 42 of
`acme/acme-web`. -/
theorem pullRequestURL_number_and_git_url_witness :
    pullRequestURLToNumber "https://git.example/acme/acme-web/pull/42" = Except.ok 42 ∧
      pullRequestGitURL "https://git.example/acme/acme-web/pull/42" =
        Except.ok "https://git.example/acme/acme-web.git" :=
  have t := pullRequestURL_number_and_git_url "https://git.example/acme/acme-web" "pull" 42
    (by decide) (by decide) (by decide)
  ⟨t.1, t.2.1⟩

/-- Counterexample to C15 as stated: on the URL of `acme/acme-web` with the
natural number `2^63 = 9223372036854775808` in decimal,
`pullRequestURLToNumber` returns an error instead of the number. -/
theorem pullRequestURLToNumber_overflow :
    "https://git.example/acme/acme-web" ++ "/" ++ "pull" ++ "/" ++
        Nat.repr 9223372036854775808 =
      "https://git.example/acme/acme-web/pull/9223372036854775808" ∧
    ∃ err, pullRequestURLToNumber
        "https://git.example/acme/acme-web/pull/9223372036854775808" = Except.error err :=
  ⟨by decide, ⟨_, rfl⟩⟩

end ControllerWorkflow
